import Mathlib

set_option maxRecDepth 8000
set_option linter.unusedVariables false

namespace Spindrift

/-! Shallow embedding of the XMODEM protocol engine in
`src/spindrift/xmodem.py` and the XMODEM-related handlers of
`src/spindrift/mock_server.py`.

Byte strings are `List Nat` (each element is one byte value); machine
arithmetic is `Nat` with the masks written exactly where the Python
code writes them.  The byte I/O adapter (`getc`/`putc`) is modelled as
a deterministic script: `getc` takes bytes from a finite input list and
returns `none` when not enough bytes remain (a timeout), `putc` records
every call on an output trace and always succeeds.  Each loop of the
Python code becomes a recursive function on explicit fuel; a run that
returns `none` ran out of fuel, which never happens for the fuel bounds
stated in the theorems. -/

/-- Protocol byte SOH (0x01), header of 128-byte blocks. -/
def SOH : Nat := 0x01
/-- Protocol byte STX (0x02), header of 8192-byte blocks. -/
def STX : Nat := 0x02
/-- Protocol byte EOT (0x04), end of transmission. -/
def EOT : Nat := 0x04
/-- Protocol byte ACK (0x06). -/
def ACK : Nat := 0x06
/-- Protocol byte NAK (0x15). -/
def NAK : Nat := 0x15
/-- Protocol byte CAN (0x16). -/
def CAN : Nat := 0x16
/-- Protocol byte C (0x43), the CRC-mode handshake request. -/
def CRC : Nat := 0x43
/-- The padding byte 0x1a used by `ljust` framing. -/
def PAD : Nat := 0x1a

/-- State of the byte I/O adapter: the remaining scripted input, the
trace of `putc` calls (one list entry per call, wire bytes are the
concatenation), and the number of `getc` calls made so far. -/
structure IOS where
  inp : List Nat
  outs : List (List Nat)
  reads : Nat
deriving Repr, DecidableEq

/-- Read exactly one byte, as Python's `self.getc(1, timeout)`: `none`
models a timeout (no byte available). -/
def getc1 (s : IOS) : Option Nat × IOS :=
  match s.inp with
  | [] => (none, { s with reads := s.reads + 1 })
  | b :: rest => (some b, { s with inp := rest, reads := s.reads + 1 })

/-- Read exactly `n` bytes, as Python's `self.getc(n, timeout)`: a short
read returns `none` and (in this model) consumes nothing. -/
def getcN (n : Nat) (s : IOS) : Option (List Nat) × IOS :=
  if n ≤ s.inp.length then
    (some (s.inp.take n), { s with inp := s.inp.drop n, reads := s.reads + 1 })
  else (none, { s with reads := s.reads + 1 })

/-- Write bytes, as Python's `self.putc(data, timeout)`; in this model a
write always succeeds and returns `data.length` to the caller. -/
def putc (d : List Nat) (s : IOS) : IOS :=
  { s with outs := s.outs ++ [d] }

/-- The abort sequence of `XMODEMProtocol.abort` with its default
`count = 2`: two `putc(CAN)` calls. -/
def abortSeq (s : IOS) : IOS :=
  putc [CAN] (putc [CAN] s)

/-- Drain loop `while self.getc(1, timeout): pass` -- reads single bytes
until a read fails.  In the script model it consumes all remaining
input and then makes one failing read. -/
def drainAll (s : IOS) : IOS :=
  match h : s.inp with
  | [] => { s with reads := s.reads + 1 }
  | _ :: rest => drainAll { s with inp := rest, reads := s.reads + 1 }
termination_by s.inp.length
decreasing_by simp [h]

/-- The 256-entry CRC lookup table `XMODEMProtocol.crctable`,
transcribed from `src/spindrift/xmodem.py` lines 42-299. -/
def crctable : List Nat := [
  0x0000, 0x1021, 0x2042, 0x3063, 0x4084, 0x50A5, 0x60C6, 0x70E7,
  0x8108, 0x9129, 0xA14A, 0xB16B, 0xC18C, 0xD1AD, 0xE1CE, 0xF1EF,
  0x1231, 0x0210, 0x3273, 0x2252, 0x52B5, 0x4294, 0x72F7, 0x62D6,
  0x9339, 0x8318, 0xB37B, 0xA35A, 0xD3BD, 0xC39C, 0xF3FF, 0xE3DE,
  0x2462, 0x3443, 0x0420, 0x1401, 0x64E6, 0x74C7, 0x44A4, 0x5485,
  0xA56A, 0xB54B, 0x8528, 0x9509, 0xE5EE, 0xF5CF, 0xC5AC, 0xD58D,
  0x3653, 0x2672, 0x1611, 0x0630, 0x76D7, 0x66F6, 0x5695, 0x46B4,
  0xB75B, 0xA77A, 0x9719, 0x8738, 0xF7DF, 0xE7FE, 0xD79D, 0xC7BC,
  0x48C4, 0x58E5, 0x6886, 0x78A7, 0x0840, 0x1861, 0x2802, 0x3823,
  0xC9CC, 0xD9ED, 0xE98E, 0xF9AF, 0x8948, 0x9969, 0xA90A, 0xB92B,
  0x5AF5, 0x4AD4, 0x7AB7, 0x6A96, 0x1A71, 0x0A50, 0x3A33, 0x2A12,
  0xDBFD, 0xCBDC, 0xFBBF, 0xEB9E, 0x9B79, 0x8B58, 0xBB3B, 0xAB1A,
  0x6CA6, 0x7C87, 0x4CE4, 0x5CC5, 0x2C22, 0x3C03, 0x0C60, 0x1C41,
  0xEDAE, 0xFD8F, 0xCDEC, 0xDDCD, 0xAD2A, 0xBD0B, 0x8D68, 0x9D49,
  0x7E97, 0x6EB6, 0x5ED5, 0x4EF4, 0x3E13, 0x2E32, 0x1E51, 0x0E70,
  0xFF9F, 0xEFBE, 0xDFDD, 0xCFFC, 0xBF1B, 0xAF3A, 0x9F59, 0x8F78,
  0x9188, 0x81A9, 0xB1CA, 0xA1EB, 0xD10C, 0xC12D, 0xF14E, 0xE16F,
  0x1080, 0x00A1, 0x30C2, 0x20E3, 0x5004, 0x4025, 0x7046, 0x6067,
  0x83B9, 0x9398, 0xA3FB, 0xB3DA, 0xC33D, 0xD31C, 0xE37F, 0xF35E,
  0x02B1, 0x1290, 0x22F3, 0x32D2, 0x4235, 0x5214, 0x6277, 0x7256,
  0xB5EA, 0xA5CB, 0x95A8, 0x8589, 0xF56E, 0xE54F, 0xD52C, 0xC50D,
  0x34E2, 0x24C3, 0x14A0, 0x0481, 0x7466, 0x6447, 0x5424, 0x4405,
  0xA7DB, 0xB7FA, 0x8799, 0x97B8, 0xE75F, 0xF77E, 0xC71D, 0xD73C,
  0x26D3, 0x36F2, 0x0691, 0x16B0, 0x6657, 0x7676, 0x4615, 0x5634,
  0xD94C, 0xC96D, 0xF90E, 0xE92F, 0x99C8, 0x89E9, 0xB98A, 0xA9AB,
  0x5844, 0x4865, 0x7806, 0x6827, 0x18C0, 0x08E1, 0x3882, 0x28A3,
  0xCB7D, 0xDB5C, 0xEB3F, 0xFB1E, 0x8BF9, 0x9BD8, 0xABBB, 0xBB9A,
  0x4A75, 0x5A54, 0x6A37, 0x7A16, 0x0AF1, 0x1AD0, 0x2AB3, 0x3A92,
  0xFD2E, 0xED0F, 0xDD6C, 0xCD4D, 0xBDAA, 0xAD8B, 0x9DE8, 0x8DC9,
  0x7C26, 0x6C07, 0x5C64, 0x4C45, 0x3CA2, 0x2C83, 0x1CE0, 0x0CC1,
  0xEF1F, 0xFF3E, 0xCF5D, 0xDF7C, 0xAF9B, 0xBFBA, 0x8FD9, 0x9FF8,
  0x6E17, 0x7E36, 0x4E55, 0x5E74, 0x2E93, 0x3EB2, 0x0ED1, 0x1EF0]

/-- Python `calc_checksum(data, checksum)`: `(sum(data) + checksum) % 256`. -/
def calc_checksum (data : List Nat) (checksum : Nat) : Nat :=
  (data.sum + checksum) % 256

/-- One iteration of the loop body of `calc_crc`:
`crc = ((crc << 8) ^ crctable[((crc >> 8) ^ char) & 0xFF]) & 0xFFFF`. -/
def crcStep (crc ch : Nat) : Nat :=
  ((crc <<< 8) ^^^ crctable.getD (((crc >>> 8) ^^^ ch) &&& 0xFF) 0) &&& 0xFFFF

/-- Python `calc_crc(data, crc)`: the table-driven CRC16 loop followed by
the final `return crc & 0xFFFF`. -/
def calc_crc (data : List Nat) (crc : Nat) : Nat :=
  (data.foldl crcStep crc) &&& 0xFFFF

/-! Reference CRC16/XMODEM, written from the specification words only:
polynomial 0x1021, initial value 0, MSB-first, no reflection, no final
XOR, computed bit by bit. -/

/-- One MSB-first bit step of the reference CRC: shift left and xor the
polynomial when the top bit (bit 15) was set. -/
def crcBitStep (c : Nat) : Nat :=
  if c.testBit 15 then ((c <<< 1) ^^^ 0x1021) &&& 0xFFFF
  else (c <<< 1) &&& 0xFFFF

/-- Reference per-byte CRC step: xor the byte into the high half and run
eight bit steps. -/
def crcByteRef (c b : Nat) : Nat :=
  crcBitStep^[8] (c ^^^ (b <<< 8))

/-- Reference bit-by-bit CRC16/XMODEM over a byte string. -/
def crcRef (data : List Nat) (c : Nat) : Nat :=
  data.foldl crcByteRef c

/-- The canonical XMODEM-CRC lookup table, derived bit by bit: entry `t`
is the CRC of the single top byte `t`. -/
def canonTable : List Nat :=
  (List.range 256).map (fun t => crcBitStep^[8] (t <<< 8))

/-! Bitwise helper lemmas used to relate the table-driven CRC to the
bit-by-bit reference. -/

/-- The mask `0xFF` is `% 256`. -/
lemma and_mask8 (x : Nat) : x &&& 255 = x % 256 := by
  have h := Nat.and_pow_two_sub_one_eq_mod x 8
  norm_num at h
  exact h

/-- The mask `0xFFFF` is `% 65536`. -/
lemma and_mask16 (x : Nat) : x &&& 65535 = x % 65536 := by
  have h := Nat.and_pow_two_sub_one_eq_mod x 16
  norm_num at h
  exact h

/-- Masking with `0xFFFF` does nothing below `2 ^ 16`. -/
lemma and_mask16_of_lt {x : Nat} (h : x < 65536) : x &&& 65535 = x := by
  rw [and_mask16]
  omega

/-- Masking with `0xFF` does nothing below `2 ^ 8`. -/
lemma and_mask8_of_lt {x : Nat} (h : x < 256) : x &&& 255 = x := by
  rw [and_mask8]
  omega

/-- Xor distributes over multiplication by a power of two. -/
lemma xor_mul_two_pow (x y k : Nat) :
    (x ^^^ y) * 2 ^ k = x * 2 ^ k ^^^ y * 2 ^ k := by
  apply Nat.eq_of_testBit_eq
  intro j
  simp only [← Nat.shiftLeft_eq, Nat.testBit_shiftLeft, Nat.testBit_xor]
  by_cases h : k ≤ j <;> simp [ge_iff_le, h]

/-- Xor of disjoint halves is addition: the low part sits below `2 ^ k`. -/
lemma mul_two_pow_xor_add {k b : Nat} (hb : b < 2 ^ k) (a : Nat) :
    2 ^ k * a ^^^ b = 2 ^ k * a + b := by
  apply Nat.eq_of_testBit_eq
  intro j
  rw [Nat.testBit_xor, Nat.testBit_mul_pow_two_add a hb j, Nat.testBit_mul_pow_two]
  by_cases h : j < k
  · have h' : ¬ (j ≥ k) := by omega
    simp [h', h]
  · have hk : k ≤ j := by omega
    have hj : b < 2 ^ j := lt_of_lt_of_le hb (Nat.pow_le_pow_right (by norm_num) hk)
    simp [ge_iff_le, hk, if_neg h, Nat.testBit_lt_two_pow hj]

/-- Each bit step stays below `2 ^ 16`. -/
lemma crcBitStep_lt (c : Nat) : crcBitStep c < 65536 := by
  unfold crcBitStep
  split <;> (rw [and_mask16]; exact Nat.mod_lt _ (by norm_num))

/-- Eight bit steps stay below `2 ^ 16`. -/
lemma crcBitStep_iter8_lt (x : Nat) : crcBitStep^[8] x < 65536 := by
  rw [show (8 : Nat) = 7 + 1 from rfl, Function.iterate_succ_apply']
  exact crcBitStep_lt _

/-- A bit step moves a low additive xor component one bit up: the
conditional branch depends only on bit 15, which `y` cannot reach. -/
lemma crcBitStep_xor (x y : Nat) (hy : y < 2 ^ 15) :
    crcBitStep (x ^^^ y) = crcBitStep x ^^^ y * 2 := by
  have hbit : (x ^^^ y).testBit 15 = x.testBit 15 := by
    rw [Nat.testBit_xor, Nat.testBit_lt_two_pow hy, Bool.xor_false]
  have hy2 : y * 2 < 65536 := by
    have h15 : (2 : Nat) ^ 15 = 32768 := by norm_num
    omega
  have hshift : ∀ z : Nat, z <<< 1 = z * 2 := fun z => by
    rw [Nat.shiftLeft_eq, pow_one]
  have hx2 : (x ^^^ y) * 2 = x * 2 ^^^ y * 2 := by
    have h := xor_mul_two_pow x y 1
    rw [pow_one] at h
    exact h
  unfold crcBitStep
  rw [hbit, hshift, hshift, hx2]
  by_cases h : x.testBit 15 = true
  · rw [if_pos h, if_pos h, Nat.xor_assoc, Nat.xor_comm (y * 2) 4129, ← Nat.xor_assoc,
      Nat.and_xor_distrib_right, and_mask16_of_lt hy2]
  · rw [if_neg h, if_neg h, Nat.and_xor_distrib_right, and_mask16_of_lt hy2]

/-- Iterating the previous lemma: after `k` steps the low component has
been shifted up `k` bits. -/
lemma crcBitStep_iter_xor :
    ∀ (k x y : Nat), y * 2 ^ k < 65536 →
      crcBitStep^[k] (x ^^^ y) = crcBitStep^[k] x ^^^ y * 2 ^ k
  | 0, x, y, _ => by simp
  | k + 1, x, y, h => by
    have hy15 : y < 2 ^ 15 := by
      have h2 : y * 2 ≤ y * 2 ^ (k + 1) := by
        apply Nat.mul_le_mul_left
        have : (2 : Nat) ^ 1 ≤ 2 ^ (k + 1) := Nat.pow_le_pow_right (by norm_num) (by omega)
        simpa using this
      have : (2 : Nat) ^ 15 = 32768 := by norm_num
      omega
    have harg : (y * 2) * 2 ^ k = y * 2 ^ (k + 1) := by ring_nf
    rw [Function.iterate_succ_apply, Function.iterate_succ_apply,
      crcBitStep_xor x y hy15,
      crcBitStep_iter_xor k (crcBitStep x) (y * 2) (by rw [harg]; exact h), harg]

/-- The lookup table of the source equals the canonical bit-derived
table. -/
lemma crctable_eq_canon : crctable = canonTable := by decide

/-- Entry `t` of the canonical table, for `t < 256`. -/
lemma canonTable_getD {t : Nat} (ht : t < 256) :
    canonTable.getD t 0 = crcBitStep^[8] (t <<< 8) := by
  unfold canonTable
  rw [List.getD_eq_getElem?_getD, List.getElem?_map, List.getElem?_range ht]
  rfl

/-- Every entry of the source table is below `2 ^ 16`. -/
lemma crctable_getD_lt (i : Nat) : crctable.getD i 0 < 65536 := by
  rw [crctable_eq_canon]
  by_cases h : i < 256
  · rw [canonTable_getD h]
    exact crcBitStep_iter8_lt _
  · rw [List.getD_eq_getElem?_getD]
    have : canonTable.length = 256 := by decide
    rw [List.getElem?_eq_none (by omega)]
    norm_num

/-- Key identity: one table-driven step on a 16-bit accumulator equals
the eight-bit-step reference on the same byte. -/
lemma crcStep_eq_crcByteRef (c b : Nat) (hc : c < 65536) (hb : b < 256) :
    crcStep c b = crcByteRef c b := by
  obtain ⟨hi, lo, hhi, hlo, hsplit⟩ :
      ∃ hi lo, hi < 256 ∧ lo < 256 ∧ c = 256 * hi + lo :=
    ⟨c / 256, c % 256, by omega, by omega, by omega⟩
  subst hsplit
  have p8 : (2 : Nat) ^ 8 = 256 := by norm_num
  have htb : hi ^^^ b < 256 := by
    have h := Nat.xor_lt_two_pow (x := hi) (y := b) (n := 8) (by omega) (by omega)
    omega
  -- table side
  have hshr : (256 * hi + lo) >>> 8 = hi := by
    rw [Nat.shiftRight_eq_div_pow, p8]
    omega
  have hshl : (256 * hi + lo) <<< 8 = (256 * hi + lo) * 256 := by
    rw [Nat.shiftLeft_eq, p8]
  have hmask : ((256 * hi + lo) * 256) &&& 65535 = 256 * lo := by
    rw [and_mask16]
    omega
  have hTv : (hi ^^^ b) <<< 8 = 256 * (hi ^^^ b) := by
    rw [Nat.shiftLeft_eq, p8]
    ring_nf
  have hT : crctable.getD ((hi ^^^ b) &&& 255) 0 = crcBitStep^[8] (256 * (hi ^^^ b)) := by
    rw [and_mask8_of_lt htb, crctable_eq_canon, canonTable_getD htb, hTv]
  unfold crcStep
  rw [hshr, hshl, hT, Nat.and_xor_distrib_right, hmask,
    and_mask16_of_lt (crcBitStep_iter8_lt _)]
  -- reference side
  unfold crcByteRef
  have hb8 : b <<< 8 = 256 * b := by
    rw [Nat.shiftLeft_eq, p8]
    ring_nf
  have hxc : (256 * hi + lo) ^^^ b <<< 8 = 256 * (hi ^^^ b) ^^^ lo := by
    rw [hb8]
    have e1 : 256 * hi + lo = 256 * hi ^^^ lo := by
      have h := mul_two_pow_xor_add (k := 8) (b := lo) (by omega) hi
      rw [p8] at h
      exact h.symm
    rw [e1, Nat.xor_assoc, Nat.xor_comm lo (256 * b), ← Nat.xor_assoc]
    congr 1
    have h2 := xor_mul_two_pow hi b 8
    rw [p8, mul_comm hi 256, mul_comm b 256, mul_comm (hi ^^^ b) 256] at h2
    exact h2.symm
  rw [hxc, crcBitStep_iter_xor 8 (256 * (hi ^^^ b)) lo (by rw [p8]; omega), p8,
    Nat.xor_comm (256 * lo), mul_comm 256 lo]

/-- The fold of the table-driven step stays below `2 ^ 16`. -/
lemma foldl_crcStep_lt : ∀ (B : List Nat) (c : Nat), c < 65536 →
    B.foldl crcStep c < 65536
  | [], c, hc => hc
  | b :: B, c, _ => by
    rw [List.foldl_cons]
    apply foldl_crcStep_lt
    unfold crcStep
    rw [and_mask16]
    exact Nat.mod_lt _ (by norm_num)

/-- The two folds agree byte by byte. -/
lemma foldl_crcStep_eq_crcRef : ∀ (B : List Nat) (c : Nat), c < 65536 →
    (∀ b ∈ B, b < 256) → B.foldl crcStep c = crcRef B c
  | [], _, _, _ => rfl
  | b :: B, c, hc, hB => by
    rw [List.foldl_cons, crcRef, List.foldl_cons,
      crcStep_eq_crcByteRef c b hc (hB b (by simp))]
    have hlt : crcByteRef c b < 65536 := crcBitStep_iter8_lt _
    rw [← crcStep_eq_crcByteRef c b hc (hB b (by simp))] at hlt ⊢
    exact foldl_crcStep_eq_crcRef B _ hlt (fun x hx => hB x (by simp [hx]))

/-- General agreement of `calc_crc` with the bit-by-bit reference on
byte strings. -/
lemma calc_crc_eq_crcRef (B : List Nat) (hB : ∀ b ∈ B, b < 256) :
    calc_crc B 0 = crcRef B 0 := by
  unfold calc_crc
  rw [and_mask16_of_lt (foldl_crcStep_lt B 0 (by norm_num)),
    foldl_crcStep_eq_crcRef B 0 (by norm_num) hB]

/-- C1.  For every byte string `B`, `calc_crc B 0` equals the reference
CRC16/XMODEM (polynomial 0x1021, initial value 0, MSB-first, no
reflection, no final xor) computed bit by bit; the CRC of the empty
string is 0x0000 and the CRC of the ASCII bytes of "hello" is 0xC362;
and the 256-entry lookup table equals the canonical XMODEM-CRC table
derived bit by bit. -/
theorem claim_C1 :
    (∀ B : List Nat, (∀ b ∈ B, b < 256) → calc_crc B 0 = crcRef B 0)
    ∧ calc_crc [] 0 = 0x0000
    ∧ calc_crc [0x68, 0x65, 0x6c, 0x6c, 0x6f] 0 = 0xC362
    ∧ crctable = canonTable :=
  ⟨calc_crc_eq_crcRef, by decide, by decide, crctable_eq_canon⟩

/-- Witness for C1: the universally quantified part applied at the
concrete byte string `[1, 2, 254]`, its hypothesis discharged by
`decide`. -/
theorem claim_C1_witness : calc_crc [1, 2, 254] 0 = crcRef [1, 2, 254] 0 :=
  claim_C1.1 [1, 2, 254] (by decide)

/-! Embedding of the virtual-file handlers of
`src/spindrift/mock_server.py`.

Python strings are modelled by the byte strings of their UTF-8
encodings: `data.decode("utf-8")` succeeds exactly when `utf8Valid`
holds, and re-encoding the decoded text yields the original bytes, so a
stored `contents` string is represented by its UTF-8 bytes.  The MD5
digest of Python's `hashlib` is a stdlib function external to this
repository; the statements are parametrised over an arbitrary digest
function `md5hex : List Nat → List Nat` returning the ASCII bytes of
the hex digest. -/

/-- The DFA of strict UTF-8 validation (RFC 3629, Unicode Table 3-7):
`need` is the number of continuation bytes still expected and `lo..hi`
the admissible range for the next one.  Lead-byte classes: `C2..DF`
expect one continuation, `E0`/`ED`/other `E1..EF` expect two with a
restricted first range (no overlongs, no surrogates), `F0`/`F1..F3`/`F4`
expect three (nothing above U+10FFFF). -/
def utf8Scan : Nat → Nat → Nat → List Nat → Bool
  | 0, _, _, [] => true
  | 0, _, _, b :: rest =>
      if b ≤ 0x7F then utf8Scan 0 0 0 rest
      else if b < 0xC2 then false
      else if b ≤ 0xDF then utf8Scan 1 0x80 0xBF rest
      else if b = 0xE0 then utf8Scan 2 0xA0 0xBF rest
      else if b = 0xED then utf8Scan 2 0x80 0x9F rest
      else if b ≤ 0xEF then utf8Scan 2 0x80 0xBF rest
      else if b = 0xF0 then utf8Scan 3 0x90 0xBF rest
      else if b ≤ 0xF3 then utf8Scan 3 0x80 0xBF rest
      else if b = 0xF4 then utf8Scan 3 0x80 0x8F rest
      else false
  | _ + 1, _, _, [] => false
  | need + 1, lo, hi, b :: rest =>
      if lo ≤ b ∧ b ≤ hi then utf8Scan need 0x80 0xBF rest else false

/-- Strict UTF-8 validity of a byte string: exactly when CPython's
`bytes.decode("utf-8")` succeeds. -/
def utf8Valid (l : List Nat) : Bool := utf8Scan 0 0 0 l

/-- One character of the standard base64 alphabet, as its ASCII code. -/
def b64Char (n : Nat) : Nat :=
  if n < 26 then 65 + n
  else if n < 52 then 97 + (n - 26)
  else if n < 62 then 48 + (n - 52)
  else if n = 62 then 43
  else 47

/-- Standard base64 encoding with trailing `=` padding, as ASCII codes,
matching Python's `base64.b64encode`. -/
def base64Encode : List Nat → List Nat
  | [] => []
  | [a] => [b64Char (a >>> 2), b64Char ((a &&& 3) <<< 4), 61, 61]
  | [a, b] => [b64Char (a >>> 2), b64Char ((a &&& 3) <<< 4 ||| b >>> 4),
      b64Char ((b &&& 15) <<< 2), 61]
  | a :: b :: c :: rest =>
      b64Char (a >>> 2) :: b64Char ((a &&& 3) <<< 4 ||| b >>> 4) ::
      b64Char ((b &&& 15) <<< 2 ||| c >>> 6) :: b64Char (c &&& 63) ::
      base64Encode rest

/-- A virtual file record, one entry of the server's `virtual_files`
mapping; `contents` holds the UTF-8 bytes of the stored string. -/
structure VirtualFile where
  path : String
  size : Nat
  contents : List Nat
  md5 : List Nat
deriving Repr, DecidableEq

/-- Method `_add_virtual_file`: data that decodes as UTF-8 is stored as
text under the given path, anything else is stored base64-encoded under
`path ++ ".b64"`; `size` is the raw byte count and `md5` is the digest
passed by the caller. -/
def add_virtual_file (filepath : String) (data : List Nat) (md5h : List Nat) :
    VirtualFile :=
  if utf8Valid data then
    { path := filepath, size := data.length, contents := data, md5 := md5h }
  else
    { path := filepath ++ ".b64", size := data.length,
      contents := base64Encode data, md5 := md5h }

/-- The success branch of `_handle_upload`: the received bytes are
digested with `hashlib.md5(file_data).hexdigest()` and stored via
`_add_virtual_file`. -/
def uploadStore (md5hex : List Nat → List Nat) (filepath : String)
    (fileData : List Nat) : VirtualFile :=
  add_virtual_file filepath fileData (md5hex fileData)

/-- Method `_handle_download` up to the `send_file` call: looks the path
up, encodes the stored `contents` string back to bytes, and recomputes
the MD5 digest from those bytes.  Returns the `(file bytes, md5)` pair
handed to the XMODEM engine, or `none` for the `ERROR: File not found`
reply. -/
def handle_download (md5hex : List Nat → List Nat)
    (files : List (String × VirtualFile)) (filepath : String) :
    Option (List Nat × List Nat) :=
  match files.lookup filepath with
  | none => none
  | some fi => some (fi.contents, md5hex fi.contents)

/-- Pure ASCII byte strings are valid UTF-8. -/
lemma utf8Valid_of_ascii : ∀ (D : List Nat), (∀ b ∈ D, b < 128) →
    utf8Valid D = true
  | [], _ => rfl
  | b :: rest, h => by
    have hb : b < 128 := h b (by simp)
    show utf8Scan 0 0 0 (b :: rest) = true
    rw [utf8Scan.eq_def]
    dsimp only
    rw [if_pos (by omega : b ≤ 0x7F)]
    exact utf8Valid_of_ascii rest (fun x hx => h x (by simp [hx]))

/-- Base64 alphabet characters are ASCII. -/
lemma b64Char_lt (n : Nat) : b64Char n < 128 := by
  unfold b64Char
  split <;> [omega; split <;> [omega; split <;> [omega; split <;> omega]]]

/-- Every byte of a base64 encoding is ASCII. -/
lemma base64Encode_ascii : ∀ (D : List Nat), ∀ x ∈ base64Encode D, x < 128 := by
  intro D
  induction D using base64Encode.induct with
  | case1 => simp [base64Encode]
  | case2 a => simp [base64Encode, b64Char_lt]
  | case3 a b => simp [base64Encode, b64Char_lt]
  | case4 a b c rest ih =>
    intro x hx
    simp only [base64Encode, List.mem_cons] at hx
    rcases hx with h | h | h | h | h
    · simpa [h] using b64Char_lt _
    · simpa [h] using b64Char_lt _
    · simpa [h] using b64Char_lt _
    · simpa [h] using b64Char_lt _
    · exact ih x h

/-- A byte string that fails UTF-8 validation is never equal to its own
base64 encoding: the encoding is pure ASCII while an invalid string must
contain a non-ASCII byte. -/
lemma base64Encode_ne_self {D : List Nat} (h : utf8Valid D = false) :
    base64Encode D ≠ D := by
  intro heq
  have hall : ∀ b ∈ D, b < 128 := by
    intro b hb
    rw [← heq] at hb
    exact base64Encode_ascii D b hb
  rw [utf8Valid_of_ascii D hall] at h
  cases h

/-- C8.  A successful upload stores valid UTF-8 data as text under the
given path, stores anything else base64-encoded under the path with
`.b64` appended, and in both cases records the MD5 of the raw bytes and
the raw byte count as the size. -/
theorem claim_C8 (md5hex : List Nat → List Nat) (filepath : String)
    (D : List Nat) (hD : ∀ b ∈ D, b < 256) :
    (utf8Valid D = true →
      uploadStore md5hex filepath D =
        { path := filepath, size := D.length, contents := D,
          md5 := md5hex D })
    ∧ (utf8Valid D = false →
      uploadStore md5hex filepath D =
        { path := filepath ++ ".b64", size := D.length,
          contents := base64Encode D, md5 := md5hex D }) := by
  constructor
  · intro h
    unfold uploadStore add_virtual_file
    rw [if_pos h]
  · intro h
    unfold uploadStore add_virtual_file
    rw [if_neg (by simp [h])]

/-- Witness for C8: both branches applied at concrete byte strings,
`[104, 105]` (ASCII "hi") and `[255]` (invalid UTF-8). -/
theorem claim_C8_witness :
    uploadStore (fun _ => [48]) "f" [104, 105] =
      { path := "f", size := 2, contents := [104, 105], md5 := [48] }
    ∧ uploadStore (fun _ => [48]) "f" [255] =
      { path := "f.b64", size := 1, contents := base64Encode [255],
        md5 := [48] } :=
  ⟨(claim_C8 (fun _ => [48]) "f" [104, 105] (by decide)).1 (by decide),
   (claim_C8 (fun _ => [48]) "f" [255] (by decide)).2 (by decide)⟩

/-- C10.  The download handler transmits the UTF-8 encoding of the
stored `contents` string together with an MD5 recomputed from that
encoding; the stored `md5` field is ignored, so a binary upload stored
under a `.b64` path is sent back as its base64 text, which differs from
the original raw bytes. -/
theorem claim_C10 (md5hex : List Nat → List Nat) :
    (∀ (files : List (String × VirtualFile)) (filepath : String)
        (vf : VirtualFile), files.lookup filepath = some vf →
      handle_download md5hex files filepath =
        some (vf.contents, md5hex vf.contents))
    ∧ (∀ (p : String) (vf : VirtualFile) (m' : List Nat),
      handle_download md5hex [(p, { vf with md5 := m' })] p =
        handle_download md5hex [(p, vf)] p)
    ∧ (∀ (D : List Nat) (path p : String), utf8Valid D = false →
      handle_download md5hex [(p, uploadStore md5hex path D)] p =
        some (base64Encode D, md5hex (base64Encode D))
      ∧ base64Encode D ≠ D) := by
  refine ⟨?_, ?_, ?_⟩
  · intro files filepath vf h
    unfold handle_download
    rw [h]
  · intro p vf m'
    unfold handle_download
    simp [List.lookup]
  · intro D path p h
    constructor
    · unfold handle_download uploadStore add_virtual_file
      rw [if_neg (by simp [h])]
      simp [List.lookup]
    · exact base64Encode_ne_self h

/-- Witness for C10: the three parts applied at a concrete store holding
the binary upload `[255]`. -/
theorem claim_C10_witness :
    handle_download (fun _ => [48]) [("x", uploadStore (fun _ => [48]) "x" [255])] "x" =
      some (base64Encode [255], [48])
    ∧ base64Encode [255] ≠ [255] :=
  (claim_C10 (fun _ => [48])).2.2 [255] "x" "x" (by decide)

/-! Embedding of the XMODEM engine of `src/spindrift/xmodem.py`. -/

/-- The `self.mode` string, restricted to its two valid values. -/
inductive Mode where
  | xmodem
  | xmodem8k
deriving Repr, DecidableEq

/-- The `packet_size` dictionary lookup of `send_file`/`receive_file`. -/
def packetSizeOf : Mode → Nat
  | Mode.xmodem => 128
  | Mode.xmodem8k => 8192

/-- Python `is_stx = 1 if packet_size > 255 else 0`. -/
def isStxOf (ps : Nat) : Nat := if ps > 255 then 1 else 0

/-- `_make_send_header`: `[SOH or STX, sequence, 0xFF - sequence]`. -/
def mkSendHeader (ps seq : Nat) : List Nat :=
  [if ps = 128 then SOH else STX, seq, 0xFF - seq]

/-- Python `data.ljust(n, pad)`: right-pad up to length `n`. -/
def ljust (l : List Nat) (n pad : Nat) : List Nat :=
  l ++ List.replicate (n - l.length) pad

/-- The length prefix of a framed payload: `[len & 0xFF]` in 128-byte
mode, `[len >> 8, len & 0xFF]` in 8K mode. -/
def lenBytes (is_stx n : Nat) : List Nat :=
  if is_stx = 0 then [n &&& 0xFF] else [n >>> 8, n &&& 0xFF]

/-- A framed payload: length prefix plus the payload padded to the
packet size (send_file lines 556-574). -/
def mkFrame (ps is_stx : Nat) (data : List Nat) : List Nat :=
  lenBytes is_stx data.length ++ ljust data ps PAD

/-- `_make_send_checksum`: two big-endian CRC bytes in CRC mode, one
mod-256 checksum byte otherwise. -/
def mkChecksumBytes (crcm : Nat) (d : List Nat) : List Nat :=
  if crcm ≠ 0 then [calc_crc d 0 >>> 8, calc_crc d 0 &&& 0xFF]
  else [calc_checksum d 0]

/-- A complete wire packet: header, framed payload, checksum over the
framed payload. -/
def mkPacket (ps is_stx crcm seq : Nat) (data : List Nat) : List Nat :=
  mkSendHeader ps seq ++ mkFrame ps is_stx data
    ++ mkChecksumBytes crcm (mkFrame ps is_stx data)

/-- The three return values of `send_file`: `True`, `False`, `None`. -/
inductive SendRes where
  | ok
  | failed
  | canceledRes
deriving Repr, DecidableEq

/-- Handshake outcome of the sender. -/
inductive SendHS where
  | started (crcm cancel : Nat) (s : IOS)
  | failedHS (s : IOS)
  | canceledHS (s : IOS)
deriving Repr

/-- The sender start-sequence loop of `send_file` (lines 463-507): wait
for `NAK` (checksum mode) or `C` (CRC mode), tolerate one `CAN` and
cancel on the second, fail at once on `EOT`, and count every other byte
or timeout against `retry`, aborting with two `CAN` bytes once
`error_count` exceeds it.  `fuel` is a termination device only. -/
def sendHandshake (fuel retry errc cancel : Nat) (s : IOS) : Option SendHS :=
  match fuel with
  | 0 => none
  | fuel + 1 =>
    let (ch, s1) := getc1 s
    match ch with
    | some c =>
      if c = NAK then some (SendHS.started 0 cancel s1)
      else if c = CRC then some (SendHS.started 1 cancel s1)
      else if c = CAN then
        if cancel ≠ 0 then some (SendHS.canceledHS s1)
        else if errc + 1 > retry then some (SendHS.failedHS (abortSeq s1))
        else sendHandshake fuel retry (errc + 1) 1 s1
      else if c = EOT then some (SendHS.failedHS s1)
      else if errc + 1 > retry then some (SendHS.failedHS (abortSeq s1))
      else sendHandshake fuel retry (errc + 1) cancel s1
    | none =>
      if errc + 1 > retry then some (SendHS.failedHS (abortSeq s1))
      else sendHandshake fuel retry (errc + 1) cancel s1

/-- Outcome of the per-packet retry loop of the sender. -/
inductive PacketLoopRes where
  | acked (cancel : Nat) (s : IOS)
  | failedPL (s : IOS)
deriving Repr

/-- The per-packet send-and-wait loop of `send_file` (lines 587-635):
transmit the packet and read one reply; `ACK` succeeds, a second `CAN`
fails at once, everything else (`NAK`, junk, timeout) counts against
`retry`, aborting with two `CAN` bytes on exhaustion. -/
def sendPacketLoop (fuel retry : Nat) (pkt : List Nat) (errc cancel : Nat)
    (s : IOS) : Option PacketLoopRes :=
  match fuel with
  | 0 => none
  | fuel + 1 =>
    let s1 := putc pkt s
    let (ch, s2) := getc1 s1
    if ch = some ACK then some (PacketLoopRes.acked cancel s2)
    else if ch = some CAN ∧ cancel ≠ 0 then some (PacketLoopRes.failedPL s2)
    else
      let cancel' := if ch = some CAN then 1 else cancel
      if errc + 1 > retry then some (PacketLoopRes.failedPL (abortSeq s2))
      else sendPacketLoop fuel retry pkt (errc + 1) cancel' s2

/-- The EOT exchange loop of `send_file` (lines 645-663): send `EOT`
until `ACK` arrives, counting failures against `retry`. -/
def sendEotLoop (fuel retry errc : Nat) (s : IOS) : Option (SendRes × IOS) :=
  match fuel with
  | 0 => none
  | fuel + 1 =>
    let s1 := putc [EOT] s
    let (ch, s2) := getc1 s1
    if ch = some ACK then some (SendRes.ok, s2)
    else if errc + 1 > retry then some (SendRes.failed, abortSeq s2)
    else sendEotLoop fuel retry (errc + 1) s2

/-- The data-block loop of `send_file` (lines 517-641): at each block
boundary check the cooperative cancellation flag; compose the MD5 block
once at sequence 0 and file chunks afterwards; stop at end of stream
and move to the EOT exchange. -/
def sendBlocks (fuel : Nat) (ps is_stx crcm : Nat) (md5 : List Nat)
    (retry : Nat) (canceled : Bool) (stream : List Nat) (md5_sent : Bool)
    (seq errc cancel : Nat) (s : IOS) : Option (SendRes × IOS) :=
  match fuel with
  | 0 => none
  | fuel + 1 =>
    if canceled then
      let s1 := drainAll (putc [CAN] (putc [CAN] (putc [CAN] s)))
      some (SendRes.canceledRes, s1)
    else
      let data := if ¬md5_sent ∧ seq = 0 then md5 else stream.take ps
      let md5_sent' := if ¬md5_sent ∧ seq = 0 then true else md5_sent
      let stream' := if ¬md5_sent ∧ seq = 0 then stream else stream.drop ps
      if data = [] then sendEotLoop fuel retry errc s
      else
        let frame := mkFrame ps is_stx data
        let pkt := mkSendHeader ps seq ++ frame ++ mkChecksumBytes crcm frame
        match sendPacketLoop fuel retry pkt errc cancel s with
        | none => none
        | some (PacketLoopRes.failedPL s1) => some (SendRes.failed, s1)
        | some (PacketLoopRes.acked cancel' s1) =>
          sendBlocks fuel ps is_stx crcm md5 retry canceled stream' md5_sent'
            ((seq + 1) % 0x100) 0 cancel' s1

/-- `send_file`: handshake, data blocks, EOT exchange.  `stream` holds
the file bytes and `md5` the ASCII bytes of the `md5_hash` argument. -/
def sendRun (fuel : Nat) (mode : Mode) (stream md5 : List Nat)
    (retry : Nat) (canceled : Bool) (s : IOS) : Option (SendRes × IOS) :=
  let ps := packetSizeOf mode
  match sendHandshake fuel retry 0 0 s with
  | none => none
  | some (SendHS.canceledHS s1) => some (SendRes.canceledRes, s1)
  | some (SendHS.failedHS s1) => some (SendRes.failed, s1)
  | some (SendHS.started crcm cancel s1) =>
      sendBlocks fuel ps (isStxOf ps) crcm md5 retry canceled stream false
        0 0 cancel s1

/-- `_verify_recv_checksum`: split off the trailing checksum bytes and
compare them with the value recomputed over the rest. -/
def verifyChecksum (crc_mode : Bool) (data : List Nat) : Bool × List Nat :=
  if crc_mode then
    let cs := data.drop (data.length - 2)
    let d := data.take (data.length - 2)
    (decide (cs.getD 0 0 <<< 8 + cs.getD 1 0 = calc_crc d 0), d)
  else
    let d := data.take (data.length - 1)
    (decide (data.getD (data.length - 1) 0 = calc_checksum d 0), d)

/-- Handshake outcome of `receive_file`. -/
inductive RecvHS where
  | started (crcm : Nat) (mode : Mode) (ch : Nat) (s : IOS)
  | failedHS (s : IOS)
deriving Repr

/-- The receive handshake loop (receive_file lines 708-764): abort once
`error_count` reaches `retry`; request CRC mode with `C` while
`error_count < retry / 2`, then downgrade to checksum mode and request
with `NAK`; fix the block-size mode from the first header byte seen;
tolerate one `CAN` (without counting it as an error) and fail on the
second; count timeouts and junk bytes against `retry`. -/
def recvHandshake (fuel retry crcm : Nat) (mode : Mode) (modeSet : Bool)
    (errc cancel : Nat) (s : IOS) : Option RecvHS :=
  match fuel with
  | 0 => none
  | fuel + 1 =>
    if errc ≥ retry then some (RecvHS.failedHS (abortSeq s))
    else
      let crcm' := if crcm ≠ 0 ∧ errc < retry / 2 then crcm else 0
      let req := if crcm ≠ 0 ∧ errc < retry / 2 then CRC else NAK
      let s1 := putc [req] s
      let (ch, s2) := getc1 s1
      match ch with
      | none => recvHandshake fuel retry crcm' mode modeSet (errc + 1) cancel s2
      | some c =>
        if c = SOH then
          some (RecvHS.started crcm' (if modeSet then mode else Mode.xmodem) c s2)
        else if c = STX then
          some (RecvHS.started crcm' (if modeSet then mode else Mode.xmodem8k) c s2)
        else if c = CAN then
          if cancel ≠ 0 then some (RecvHS.failedHS s2)
          else recvHandshake fuel retry crcm' mode modeSet errc 1 s2
        else recvHandshake fuel retry crcm' mode modeSet (errc + 1) cancel s2

/-- Result classification of the inner header-wait loop of the
receiver. -/
inductive HWRes where
  | found (ch : Nat) (s : IOS)
  | eotW (s : IOS)
  | canW (s : IOS)
  | failW (s : IOS)
deriving Repr

/-- The header-wait loop (receive_file lines 804-851): accept `SOH` or
`STX`; finish on `EOT`; apply the two-`CAN` rule -- note that this
branch does not read a fresh byte, so the same `CAN` is examined again
on the next pass and a single `CAN` byte cancels here; count timeouts
and junk bytes against `retry`, aborting with two `CAN` bytes; after a
junk byte, purge all buffered input and send `NAK`. -/
def headerWait (fuel retry : Nat) (char : Option Nat) (errc cancel : Nat)
    (s : IOS) : Option HWRes :=
  match fuel with
  | 0 => none
  | fuel + 1 =>
    match char with
    | some c =>
      if c = SOH ∨ c = STX then some (HWRes.found c s)
      else if c = EOT then some (HWRes.eotW s)
      else if c = CAN then
        if cancel ≠ 0 then some (HWRes.canW s)
        else headerWait fuel retry char errc 1 s
      else if errc + 1 > retry then some (HWRes.failW (abortSeq s))
      else
        let s1 := putc [NAK] (drainAll s)
        let (ch2, s2) := getc1 s1
        headerWait fuel retry ch2 (errc + 1) cancel s2
    | none =>
      if errc + 1 > retry then some (HWRes.failW (abortSeq s))
      else
        let (ch2, s1) := getc1 s
        headerWait fuel retry ch2 (errc + 1) cancel s1

/-- Outcome of processing one packet body (its header byte already
consumed). -/
inductive PacketRes where
  | success (sink : List Nat) (income : Nat) (md5rec : Bool)
      (char : Option Nat) (s : IOS)
  | md5hit (s : IOS)
  | soft (s : IOS)
deriving Repr

/-- Packet processing of `receive_file` (lines 853-935): read the two
sequence bytes; on any mismatch consume `2 + packet_size + 1 +
crc_mode` further bytes and fail softly; otherwise read the framed
payload plus checksum (`1 + is_stx + packet_size + 1 + crc_mode`
bytes), verify the checksum, then either perform the one-time
sequence-0 MD5 comparison (cancelling with three `CAN` bytes and
draining on a match) or decode the length prefix and write that many
payload bytes to the sink; acknowledge and read the next header byte. -/
def recvPacket (ps is_stx crcm : Nat) (md5h : List Nat) (seq : Nat)
    (md5rec : Bool) (sink : List Nat) (income : Nat) (s : IOS) : PacketRes :=
  let (o1, s1) := getc1 s
  match o1 with
  | none =>
      let (_, s2) := getcN (2 + ps + 1 + crcm) s1
      PacketRes.soft s2
  | some b1 =>
      let (o2, s2) := getc1 s1
      match o2 with
      | none =>
          let (_, s3) := getcN (2 + ps + 1 + crcm) s2
          PacketRes.soft s3
      | some b2 =>
          if b1 = 0xFF - b2 ∧ 0xFF - b2 = seq then
            let (dat?, s3) := getcN (1 + is_stx + ps + 1 + crcm) s2
            match dat? with
            | none => PacketRes.soft s3
            | some dat =>
                match verifyChecksum (crcm ≠ 0) dat with
                | (false, _) => PacketRes.soft s3
                | (true, d) =>
                    if seq = 0 ∧ md5rec = false then
                      if md5h = (d.drop (1 + is_stx)).take 32 then
                        PacketRes.md5hit
                          (drainAll (putc [CAN] (putc [CAN] (putc [CAN] s3))))
                      else
                        let s4 := putc [ACK] s3
                        let (ch, s5) := getc1 s4
                        PacketRes.success sink income true ch s5
                    else
                      let dlen := if is_stx ≠ 0 then
                          d.getD 0 0 <<< 8 ||| d.getD 1 0
                        else d.getD 0 0
                      let actual := (d.drop (1 + is_stx)).take dlen
                      let s4 := putc [ACK] s3
                      let (ch, s5) := getc1 s4
                      PacketRes.success (sink ++ actual)
                        (income + actual.length) md5rec ch s5
          else
            let (_, s3) := getcN (2 + ps + 1 + crcm) s2
            PacketRes.soft s3

/-- Whole-run output of `receive_file`: the Python return value
(`none` for `None`, `-1`, `0`, or the byte count), the bytes written to
the sink, the final adapter state, and whether the sequence-0 MD5-match
branch was taken. -/
structure RecvOut where
  res : Option Int
  sink : List Nat
  s : IOS
  md5M : Bool
deriving Repr

/-- The block loop of `receive_file` (lines 792-950): check the
cooperative cancellation flag, wait for a header byte, process the
packet; a success acknowledges, advances the sequence and resets
`retrans` to `retry + 1`; a soft failure purges buffered input,
decrements `retrans` (aborting at zero) and sends `NAK`. -/
def recvLoop (fuel : Nat) (ps is_stx crcm retry : Nat) (md5h : List Nat)
    (canceled : Bool) (char : Option Nat) (seq : Nat) (sink : List Nat)
    (income : Nat) (retrans : Nat) (md5rec : Bool) (s : IOS) :
    Option RecvOut :=
  match fuel with
  | 0 => none
  | fuel + 1 =>
    if canceled then
      let s1 := drainAll (putc [CAN] (putc [CAN] (putc [CAN] s)))
      some ⟨some (-1), sink, s1, false⟩
    else
      match headerWait fuel retry char 0 0 s with
      | none => none
      | some (HWRes.eotW s1) => some ⟨some income, sink, putc [ACK] s1, false⟩
      | some (HWRes.canW s1) => some ⟨none, sink, s1, false⟩
      | some (HWRes.failW s1) => some ⟨none, sink, s1, false⟩
      | some (HWRes.found _ s1) =>
        match recvPacket ps is_stx crcm md5h seq md5rec sink income s1 with
        | PacketRes.md5hit s2 => some ⟨some 0, sink, s2, true⟩
        | PacketRes.success sink' income' md5rec' ch s2 =>
            recvLoop fuel ps is_stx crcm retry md5h canceled ch
              ((seq + 1) % 0x100) sink' income' (retry + 1) md5rec' s2
        | PacketRes.soft s2 =>
            let s3 := drainAll s2
            if retrans - 1 = 0 then some ⟨none, sink, abortSeq s3, false⟩
            else
              let s4 := putc [NAK] s3
              let (ch, s5) := getc1 s4
              recvLoop fuel ps is_stx crcm retry md5h canceled ch seq sink
                income (retrans - 1) md5rec s5

/-- `receive_file`: handshake then block loop, starting from an empty
sink, `sequence = 0` and `retrans = retry + 1`. -/
def recvRun (fuel : Nat) (mode0 : Mode) (modeSet0 : Bool) (md5h : List Nat)
    (crcm0 retry : Nat) (canceled : Bool) (s : IOS) : Option RecvOut :=
  match recvHandshake fuel retry crcm0 mode0 modeSet0 0 0 s with
  | none => none
  | some (RecvHS.failedHS s1) => some ⟨none, [], s1, false⟩
  | some (RecvHS.started crcm mode ch s1) =>
      let ps := packetSizeOf mode
      recvLoop fuel ps (isStxOf ps) crcm retry md5h canceled (some ch) 0 []
        0 (retry + 1) false s1

/-- `_handle_upload` of the mock server: a fresh 8K-mode protocol
instance receives with `md5_hash = ""` and `retry = 10`; the reply
string and the stored file are selected from the result. -/
def handle_upload (md5hex : List Nat → List Nat) (filepath : String)
    (fuel : Nat) (s : IOS) : Option (String × Option VirtualFile) :=
  match recvRun fuel Mode.xmodem8k false [] 1 10 false s with
  | none => none
  | some out =>
    match out.res with
    | none => some ("ERROR: Upload failed", none)
    | some r =>
      if r = -1 then some ("ERROR: Upload canceled", none)
      else if r = 0 then
        some ("Upload canceled - file already exists with same content", none)
      else some ("", some (uploadStore md5hex filepath out.sink))

/-! Basic facts about the adapter model. -/

@[simp] lemma getc1_nil (o : List (List Nat)) (r : Nat) :
    getc1 ⟨[], o, r⟩ = (none, ⟨[], o, r + 1⟩) := rfl

@[simp] lemma getc1_cons (b : Nat) (l : List Nat) (o : List (List Nat)) (r : Nat) :
    getc1 ⟨b :: l, o, r⟩ = (some b, ⟨l, o, r + 1⟩) := rfl

@[simp] lemma putc_mk (d : List Nat) (i : List Nat) (o : List (List Nat)) (r : Nat) :
    putc d ⟨i, o, r⟩ = ⟨i, o ++ [d], r⟩ := rfl

@[simp] lemma abortSeq_mk (i : List Nat) (o : List (List Nat)) (r : Nat) :
    abortSeq ⟨i, o, r⟩ = ⟨i, o ++ [[CAN], [CAN]], r⟩ := by
  simp [abortSeq, putc]

/-- Reading exactly the first `n` bytes of the script. -/
lemma getcN_exact {n : Nat} {a : List Nat} (h : a.length = n) (b : List Nat)
    (o : List (List Nat)) (r : Nat) :
    getcN n ⟨a ++ b, o, r⟩ = (some a, ⟨b, o, r + 1⟩) := by
  unfold getcN
  rw [if_pos (by simp; omega)]
  simp [List.take_left' h, List.drop_left' h]

/-- A failing bulk read when not enough bytes remain. -/
lemma getcN_short {n : Nat} {i : List Nat} (h : i.length < n)
    (o : List (List Nat)) (r : Nat) :
    getcN n ⟨i, o, r⟩ = (none, ⟨i, o, r + 1⟩) := by
  unfold getcN
  dsimp only
  rw [if_neg (by omega)]

/-- The drain loop consumes the whole script and makes one extra failing
read. -/
@[simp] lemma drainAll_mk (i : List Nat) (o : List (List Nat)) (r : Nat) :
    drainAll ⟨i, o, r⟩ = ⟨[], o, r + i.length + 1⟩ := by
  induction i generalizing r with
  | nil =>
    rw [drainAll]
    simp
  | cons b rest ih =>
    rw [drainAll]
    dsimp only
    rw [ih (r + 1)]
    congr 1
    simp
    omega

/-! C4: a sender whose handshake reads all time out. -/

/-- On an empty script the sender handshake makes `retry + 1 - errc`
further read attempts and fails with a two-`CAN` abort. -/
lemma sendHandshake_allTimeout (k : Nat) :
    ∀ (retry errc cancel : Nat) (o : List (List Nat)) (r : Nat),
    errc ≤ retry → retry + 1 - errc ≤ k →
    sendHandshake k retry errc cancel ⟨[], o, r⟩ =
      some (SendHS.failedHS ⟨[], o ++ [[CAN], [CAN]], r + (retry + 1 - errc)⟩) := by
  induction k with
  | zero =>
    intro retry errc cancel o r h1 h2
    exact absurd h2 (by omega)
  | succ k ih =>
    intro retry errc cancel o r h1 h2
    rw [sendHandshake]
    simp only [getc1_nil]
    by_cases hc : errc + 1 > retry
    · rw [if_pos hc]
      have hr : retry + 1 - errc = 1 := by omega
      rw [hr]
      simp only [abortSeq_mk]
    · have ha : errc + 1 ≤ retry := by omega
      have hb : retry + 1 - (errc + 1) ≤ k := by omega
      have hr : r + 1 + (retry + 1 - (errc + 1)) = r + (retry + 1 - errc) := by omega
      rw [if_neg hc, ih retry (errc + 1) cancel o (r + 1) ha hb, hr]

/-- `send_file` on a silent line: `Failed` after exactly `retry + 1`
read attempts, with two `CAN` bytes on the wire. -/
lemma sendRun_allTimeout (fuel : Nat) (mode : Mode) (stream md5 : List Nat)
    (retry : Nat) (o : List (List Nat)) (r : Nat) (hf : retry + 1 ≤ fuel) :
    sendRun fuel mode stream md5 retry false ⟨[], o, r⟩ =
      some (SendRes.failed, ⟨[], o ++ [[CAN], [CAN]], r + (retry + 1)⟩) := by
  unfold sendRun
  rw [sendHandshake_allTimeout fuel retry 0 0 o r (by omega) (by omega)]
  dsimp only
  norm_num

/-- C4 (corrected).  A sender whose handshake reads all time out returns
the Failed result after exactly `retry + 1` read attempts (not `retry`),
having transmitted two `CAN` bytes on the wire. -/
theorem claim_C4 (fuel : Nat) (mode : Mode) (stream md5 : List Nat)
    (retry : Nat) (hf : retry + 1 ≤ fuel) :
    sendRun fuel mode stream md5 retry false ⟨[], [], 0⟩ =
      some (SendRes.failed, ⟨[], [[CAN], [CAN]], retry + 1⟩) := by
  have h := sendRun_allTimeout fuel mode stream md5 retry [] 0 hf
  simpa using h

/-- Witness for C4 at the default `retry = 16`. -/
theorem claim_C4_witness :
    sendRun 18 Mode.xmodem8k [1, 2, 3] [97] 16 false ⟨[], [], 0⟩ =
      some (SendRes.failed, ⟨[], [[CAN], [CAN]], 17⟩) :=
  claim_C4 18 Mode.xmodem8k [1, 2, 3] [97] 16 (by omega)

/-- Counterexample to C4 as stated: with `retry = 3` the failing
handshake makes 4 read attempts, not 3. -/
theorem claim_C4_cex :
    (∃ out, sendRun 5 Mode.xmodem8k [] [] 3 false ⟨[], [], 0⟩ =
      some (SendRes.failed, out) ∧ out.reads ≠ 3) := by
  refine ⟨⟨[], [[CAN], [CAN]], 4⟩, ?_, by decide⟩
  have h := sendRun_allTimeout 5 Mode.xmodem8k [] [] 3 [] 0 (by omega)
  simpa using h

/-! C5: a receiver fed two consecutive CAN bytes during the handshake. -/

/-- Two `CAN` bytes at the receive handshake (CRC mode requested,
`retry ≥ 2`): the receiver sends `C` twice, consumes both `CAN`s and
returns the failure value, with no abort sequence. -/
lemma recvHandshake_twoCAN (f retry : Nat) (mode : Mode) (modeSet : Bool)
    (o : List (List Nat)) (r : Nat) (h2 : 2 ≤ retry) :
    recvHandshake (f + 2) retry 1 mode modeSet 0 0 ⟨[CAN, CAN], o, r⟩ =
      some (RecvHS.failedHS ⟨[], o ++ [[CRC], [CRC]], r + 2⟩) := by
  have hcond : ((1 : Nat) ≠ 0 ∧ 0 < retry / 2) = True :=
    eq_true ⟨by decide, by omega⟩
  rw [recvHandshake, if_neg (by omega : ¬ (0 ≥ retry))]
  simp only [hcond, if_true, putc_mk, getc1_cons]
  rw [if_neg (by decide : ¬ (CAN = SOH)), if_neg (by decide : ¬ (CAN = STX)),
    if_neg (by decide : ¬ ((0 : Nat) ≠ 0))]
  rw [recvHandshake, if_neg (by omega : ¬ (0 ≥ retry))]
  simp only [hcond, if_true, putc_mk, getc1_cons]
  rw [if_neg (by decide : ¬ (CAN = SOH)), if_neg (by decide : ¬ (CAN = STX)),
    if_pos (by decide : (1 : Nat) ≠ 0)]
  simp [List.append_assoc]

/-- `receive_file` fed `[CAN, CAN]`: the run ends in the handshake with
the failure return value `None` and an empty sink. -/
lemma recvRun_twoCAN (f retry : Nat) (mode0 : Mode) (modeSet0 : Bool)
    (md5h : List Nat) (h2 : 2 ≤ retry) :
    recvRun (f + 2) mode0 modeSet0 md5h 1 retry false ⟨[CAN, CAN], [], 0⟩ =
      some ⟨none, [], ⟨[], [[CRC], [CRC]], 2⟩, false⟩ := by
  unfold recvRun
  rw [recvHandshake_twoCAN f retry mode0 modeSet0 [] 0 h2]
  simp

/-- C5 (corrected).  A receiver fed two consecutive CAN bytes during the
handshake returns the failure value `None` -- the same value as a failed
transfer, not the distinct cancellation value `-1` -- and writes zero
bytes to the sink. -/
theorem claim_C5 (fuel retry : Nat) (mode0 : Mode) (modeSet0 : Bool)
    (md5h : List Nat) (hf : 2 ≤ fuel) (h2 : 2 ≤ retry) :
    ∃ s', recvRun fuel mode0 modeSet0 md5h 1 retry false ⟨[CAN, CAN], [], 0⟩ =
      some ⟨none, [], s', false⟩ := by
  obtain ⟨f, rfl⟩ : ∃ f, fuel = f + 2 := ⟨fuel - 2, by omega⟩
  exact ⟨_, recvRun_twoCAN f retry mode0 modeSet0 md5h h2⟩

/-- Witness for C5 at the server's `retry = 10`. -/
theorem claim_C5_witness :
    ∃ s', recvRun 12 Mode.xmodem8k false [] 1 10 false ⟨[CAN, CAN], [], 0⟩ =
      some ⟨none, [], s', false⟩ :=
  claim_C5 12 10 Mode.xmodem8k false [] (by omega) (by omega)

/-- Counterexample to C5 as stated: the concrete run returns the failure
value `None`, which is not the cancellation value `-1` that the claim
(and the spec's `Canceled` result) designate. -/
theorem claim_C5_cex :
    recvRun 12 Mode.xmodem8k false [] 1 10 false ⟨[CAN, CAN], [], 0⟩ =
      some ⟨none, [], ⟨[], [[CRC], [CRC]], 2⟩, false⟩
    ∧ (none : Option Int) ≠ some (-1) :=
  ⟨recvRun_twoCAN 10 10 Mode.xmodem8k false [] (by omega), by decide⟩

/-! C3: handling of a packet whose sequence bytes do not match. -/

/-- A packet with mismatching sequence bytes: the receiver reads the two
sequence bytes and then discards `2 + packet_size + 1 + crc_mode` more
bytes, writes nothing, and fails softly. -/
lemma recvPacket_mismatch (ps is_stx crcm : Nat) (md5h : List Nat)
    (seq : Nat) (md5rec : Bool) (sink : List Nat) (income : Nat)
    (s1b s2b : Nat) (body tail : List Nat) (o : List (List Nat)) (r : Nat)
    (hlen : body.length = 2 + ps + 1 + crcm)
    (hmis : ¬ (s1b = 0xFF - s2b ∧ 0xFF - s2b = seq)) :
    recvPacket ps is_stx crcm md5h seq md5rec sink income
        ⟨s1b :: s2b :: (body ++ tail), o, r⟩ =
      PacketRes.soft ⟨tail, o, r + 3⟩ := by
  unfold recvPacket
  simp only [getc1_cons]
  rw [if_neg hmis, getcN_exact hlen]

/-- One pass of the block loop over a bad-sequence packet whose bytes
(and nothing more) are buffered: the receiver consumes the sequence
bytes plus the discard read, purges, sends `NAK`, and re-enters the
loop with the same expected sequence, the same sink and `retrans - 1`. -/
lemma recvLoop_mismatch_step (g : Nat) (ps is_stx crcm retry : Nat)
    (md5h : List Nat) (seq : Nat) (sink : List Nat) (income retrans : Nat)
    (md5rec : Bool) (hdr : Nat) (s1b s2b : Nat) (body : List Nat)
    (o : List (List Nat)) (r : Nat)
    (hhdr : hdr = SOH ∨ hdr = STX)
    (hlen : body.length = 2 + ps + 1 + crcm)
    (hmis : ¬ (s1b = 0xFF - s2b ∧ 0xFF - s2b = seq))
    (hrt : 1 < retrans) :
    recvLoop (g + 2) ps is_stx crcm retry md5h false (some hdr) seq sink
        income retrans md5rec ⟨s1b :: s2b :: body, o, r⟩ =
      recvLoop (g + 1) ps is_stx crcm retry md5h false none seq sink income
        (retrans - 1) md5rec ⟨[], o ++ [[NAK]], r + 5⟩ := by
  rw [recvLoop]
  rw [if_neg (by decide : ¬ (false = true))]
  rw [headerWait, if_pos hhdr]
  dsimp only
  have hb : s1b :: s2b :: body = s1b :: s2b :: (body ++ []) := by simp
  rw [hb, recvPacket_mismatch ps is_stx crcm md5h seq md5rec sink income
    s1b s2b body [] o r hlen hmis]
  dsimp only
  rw [drainAll_mk, if_neg (by omega : ¬ (retrans - 1 = 0))]
  simp only [putc_mk, getc1_nil]
  norm_num

/-- C3 (corrected).  For a packet whose sequence or complement byte is
wrong, the receiver consumes the two sequence bytes plus `2 +
packet_size + 1 + crc_mode` discard bytes -- one byte more than the
packet's remaining bytes in 128-byte mode, exactly the remaining bytes
in 8192-byte mode -- writes nothing to the output sink, fails softly,
sends `NAK` after purging, and leaves the expected sequence unchanged:
packet level (the discard leaves exactly `tail` of a buffer holding the
two sequence bytes, `2 + packet_size + 1 + crc_mode` further bytes and
`tail`), loop level (one pass re-enters with the same sequence and sink
and `retrans - 1`), and the size identity locating the one-byte
overshoot. -/
theorem claim_C3 (g : Nat) (mode : Mode) (crcm retry : Nat)
    (md5h : List Nat) (seq : Nat) (sink : List Nat) (income retrans : Nat)
    (md5rec : Bool) (s1b s2b : Nat) (body tail : List Nat)
    (o : List (List Nat)) (r : Nat)
    (hlen : body.length = 2 + packetSizeOf mode + 1 + crcm)
    (hmis : ¬ (s1b = 0xFF - s2b ∧ 0xFF - s2b = seq))
    (hrt : 1 < retrans) :
    recvPacket (packetSizeOf mode) (isStxOf (packetSizeOf mode)) crcm md5h
        seq md5rec sink income ⟨s1b :: s2b :: (body ++ tail), o, r⟩ =
      PacketRes.soft ⟨tail, o, r + 3⟩
    ∧ (recvLoop (g + 2) (packetSizeOf mode) (isStxOf (packetSizeOf mode)) crcm
        retry md5h false (some (if packetSizeOf mode = 128 then SOH else STX))
        seq sink income retrans md5rec ⟨s1b :: s2b :: body, o, r⟩ =
      recvLoop (g + 1) (packetSizeOf mode) (isStxOf (packetSizeOf mode)) crcm
        retry md5h false none seq sink income (retrans - 1) md5rec
        ⟨[], o ++ [[NAK]], r + 5⟩)
    ∧ 2 + packetSizeOf mode + 1 + crcm =
        (1 + isStxOf (packetSizeOf mode) + packetSizeOf mode + 1 + crcm)
          + (1 - isStxOf (packetSizeOf mode)) := by
  refine ⟨?_, ?_, ?_⟩
  · exact recvPacket_mismatch (packetSizeOf mode) (isStxOf (packetSizeOf mode))
      crcm md5h seq md5rec sink income s1b s2b body tail o r hlen hmis
  · apply recvLoop_mismatch_step
    · cases mode <;> simp [packetSizeOf, isStxOf]
    · exact hlen
    · exact hmis
    · exact hrt
  · cases mode <;> (simp [packetSizeOf, isStxOf]; try omega)

/-- Witness for C3 in 8192-byte CRC mode with a wrong sequence byte:
the discard consumes the 8196 buffered packet bytes and leaves exactly
the trailing `[9]`. -/
theorem claim_C3_witness :
    recvPacket (packetSizeOf Mode.xmodem8k) (isStxOf (packetSizeOf Mode.xmodem8k)) 1
        [] 0 false [] 0 ⟨5 :: 250 :: (List.replicate 8196 7 ++ [9]), [], 0⟩ =
      PacketRes.soft ⟨[9], [], 3⟩
    ∧ (recvLoop 3 (packetSizeOf Mode.xmodem8k) (isStxOf (packetSizeOf Mode.xmodem8k)) 1
        10 [] false (some (if packetSizeOf Mode.xmodem8k = 128 then SOH else STX))
        0 [] 0 11 false ⟨5 :: 250 :: List.replicate 8196 7, [], 0⟩ =
      recvLoop 2 (packetSizeOf Mode.xmodem8k) (isStxOf (packetSizeOf Mode.xmodem8k)) 1
        10 [] false none 0 [] 0 10 false ⟨[], [[NAK]], 5⟩)
    ∧ 2 + packetSizeOf Mode.xmodem8k + 1 + 1 =
        (1 + isStxOf (packetSizeOf Mode.xmodem8k) + packetSizeOf Mode.xmodem8k + 1 + 1)
          + (1 - isStxOf (packetSizeOf Mode.xmodem8k)) :=
  claim_C3 1 Mode.xmodem8k 1 10 [] 0 [] 0 11 false 5 250
    (List.replicate 8196 7) [9] [] 0
    (by rw [List.length_replicate]; decide) (by decide) (by omega)

/-- Counterexample to C3 as stated: in 128-byte CRC mode the remaining
bytes of a bad-sequence packet are 131, but the discard read consumes
132 bytes, eating the first byte (here `9`) of whatever follows: the
leftover input is `[]` where exact consumption would leave `[9]`. -/
theorem claim_C3_cex :
    recvPacket 128 0 1 [] 0 false [] 0
        ⟨[5, 250] ++ ((List.replicate 131 7 ++ [9]) ++ []), [], 0⟩ =
      PacketRes.soft ⟨[], [], 3⟩
    ∧ ([] : List Nat) ≠ [9] := by
  constructor
  · exact recvPacket_mismatch 128 0 1 [] 0 false [] 0 5 250
      (List.replicate 131 7 ++ [9]) [] [] 0
      (by rw [List.length_append, List.length_replicate]; decide) (by decide)
  · decide

/-! Happy-path transcripts: the wire image of a fully acknowledged
transfer, used for the round-trip results. -/

/-- The handshake byte a receiver with the given `crc_mode` emits first:
`C` for CRC mode, `NAK` for checksum mode. -/
def hsByteOf (crcm : Nat) : Nat := if crcm ≠ 0 then CRC else NAK

/-- The data packets of a fully acknowledged sender: packet `k` carries
chunk `k` of the stream under sequence `(seq + k) % 256`. -/
def chunkPackets (ps is_stx crcm : Nat) : Nat → List Nat → List (List Nat)
  | _, [] => []
  | seq, b :: rest =>
      mkPacket ps is_stx crcm seq ((b :: rest).take ps) ::
      chunkPackets ps is_stx crcm ((seq + 1) % 0x100) (rest.drop (ps - 1))
termination_by _ l => l.length
decreasing_by simp; omega

/-- The number of chunks of a stream cut into `ps`-byte pieces. -/
def chunkCount (ps : Nat) : List Nat → Nat
  | [] => 0
  | _ :: rest => chunkCount ps (rest.drop (ps - 1)) + 1
termination_by l => l.length
decreasing_by simp; omega

/-- The full `putc` trace of a fully acknowledged `send_file` run: the
sequence-0 MD5 packet, the data packets from sequence 1 on, and the
final `EOT`. -/
def sendPacketsAll (mode : Mode) (crcm : Nat) (md5 stream : List Nat) :
    List (List Nat) :=
  mkPacket (packetSizeOf mode) (isStxOf (packetSizeOf mode)) crcm 0 md5 ::
    chunkPackets (packetSizeOf mode) (isStxOf (packetSizeOf mode)) crcm 1 stream
    ++ [[EOT]]

/-- Unfolding `chunkPackets` on a non-empty stream, stated with
`drop ps`. -/
lemma chunkPackets_cons (ps is_stx crcm seq : Nat) (b : Nat)
    (rest : List Nat) (hps : 1 ≤ ps) :
    chunkPackets ps is_stx crcm seq (b :: rest) =
      mkPacket ps is_stx crcm seq ((b :: rest).take ps) ::
      chunkPackets ps is_stx crcm ((seq + 1) % 0x100) ((b :: rest).drop ps) := by
  obtain ⟨k, rfl⟩ : ∃ k, ps = k + 1 := ⟨ps - 1, by omega⟩
  rw [chunkPackets, List.drop_succ_cons]
  norm_num

/-- Unfolding `chunkCount` on a non-empty stream. -/
lemma chunkCount_cons (ps : Nat) (b : Nat) (rest : List Nat) (hps : 1 ≤ ps) :
    chunkCount ps (b :: rest) = chunkCount ps ((b :: rest).drop ps) + 1 := by
  obtain ⟨k, rfl⟩ : ∃ k, ps = k + 1 := ⟨ps - 1, by omega⟩
  rw [chunkCount, List.drop_succ_cons]
  norm_num

/-- A packet written with its leading bytes exposed. -/
lemma mkPacket_cons (ps is_stx crcm seq : Nat) (data : List Nat) :
    mkPacket ps is_stx crcm seq data =
      (if ps = 128 then SOH else STX) :: seq :: (0xFF - seq) ::
        (mkFrame ps is_stx data ++ mkChecksumBytes crcm (mkFrame ps is_stx data)) := by
  simp [mkPacket, mkSendHeader]

/-- Length of a padded payload. -/
lemma ljust_length {l : List Nat} {n : Nat} (pad : Nat) (h : l.length ≤ n) :
    (ljust l n pad).length = n := by
  simp [ljust]
  omega

/-- Length of the length prefix. -/
lemma lenBytes_length {is_stx : Nat} (n : Nat) (h : is_stx = 0 ∨ is_stx = 1) :
    (lenBytes is_stx n).length = 1 + is_stx := by
  rcases h with h | h <;> simp [lenBytes, h]

/-- Length of a framed payload. -/
lemma mkFrame_length {ps is_stx : Nat} {data : List Nat}
    (hst : is_stx = 0 ∨ is_stx = 1) (hd : data.length ≤ ps) :
    (mkFrame ps is_stx data).length = 1 + is_stx + ps := by
  simp [mkFrame, lenBytes_length _ hst, ljust_length _ hd]

/-- Length of the checksum trailer. -/
lemma mkChecksumBytes_length {crcm : Nat} (d : List Nat)
    (h : crcm = 0 ∨ crcm = 1) :
    (mkChecksumBytes crcm d).length = 1 + crcm := by
  rcases h with h | h <;> simp [mkChecksumBytes, h]

/-- `calc_crc` stays below `2 ^ 16`. -/
lemma calc_crc_lt (data : List Nat) (c : Nat) : calc_crc data c < 65536 := by
  unfold calc_crc
  rw [and_mask16]
  exact Nat.mod_lt _ (by norm_num)

/-- The payload region of a frame. -/
lemma mkFrame_drop {ps is_stx : Nat} (data : List Nat)
    (hst : is_stx = 0 ∨ is_stx = 1) :
    (mkFrame ps is_stx data).drop (1 + is_stx) = ljust data ps PAD := by
  apply List.drop_left'
  exact lenBytes_length _ hst

/-- Taking the original payload back out of the padding. -/
lemma ljust_take (data : List Nat) (n pad : Nat) :
    (ljust data n pad).take data.length = data :=
  List.take_left' rfl

/-- Taking a prefix of the payload of a `ljust`-padded block. -/
lemma ljust_take_of_le {data : List Nat} {k : Nat} (n pad : Nat)
    (h : k ≤ data.length) :
    (ljust data n pad).take k = data.take k := by
  unfold ljust
  rw [List.take_append_of_le_length h]

/-- `getD` on the left part of an append. -/
lemma getD_append_left {l l' : List Nat} {n : Nat} (h : n < l.length)
    (d : Nat) : (l ++ l').getD n d = l.getD n d := by
  rw [List.getD_eq_getElem?_getD, List.getElem?_append_left h,
    List.getD_eq_getElem?_getD]

/-- Checksum verification in plain-checksum mode accepts the trailer the
sender computed and returns the framed payload. -/
lemma verifyChecksum_sum (frame : List Nat) :
    verifyChecksum false (frame ++ [calc_checksum frame 0]) = (true, frame) := by
  unfold verifyChecksum
  rw [if_neg (by decide : ¬ (false = true))]
  have hlen : (frame ++ [calc_checksum frame 0]).length = frame.length + 1 := by
    simp
  rw [hlen, Nat.add_sub_cancel, List.take_left' rfl, List.getD_eq_getElem?_getD,
    List.getElem?_append_right (Nat.le_refl _)]
  simp

/-- Checksum verification in CRC mode accepts the trailer the sender
computed and returns the framed payload. -/
lemma verifyChecksum_crc (frame : List Nat) :
    verifyChecksum true
        (frame ++ [calc_crc frame 0 >>> 8, calc_crc frame 0 &&& 0xFF]) =
      (true, frame) := by
  unfold verifyChecksum
  rw [if_pos rfl]
  have hlen : (frame ++ [calc_crc frame 0 >>> 8, calc_crc frame 0 &&& 0xFF]).length
      = frame.length + 2 := by simp
  rw [hlen, Nat.add_sub_cancel, List.drop_left' rfl, List.take_left' rfl]
  have hcl : calc_crc frame 0 < 65536 := calc_crc_lt frame 0
  rw [Prod.mk.injEq]
  refine ⟨?_, rfl⟩
  rw [decide_eq_true_eq]
  simp only [List.getD_cons_zero, List.getD_cons_succ]
  rw [Nat.shiftRight_eq_div_pow, Nat.shiftLeft_eq, and_mask8]
  norm_num
  omega

/-- Decoding the one-byte length prefix. -/
lemma frame_dlen0 {n : Nat} (tail : List Nat) (h : n < 256) :
    ((lenBytes 0 n ++ tail)).getD 0 0 = n := by
  rw [getD_append_left (by simp [lenBytes])]
  simp [lenBytes, and_mask8]
  omega

/-- Decoding the two-byte length prefix. -/
lemma frame_dlen1 {n : Nat} (tail : List Nat) (h : n < 65536) :
    (lenBytes 1 n ++ tail).getD 0 0 <<< 8 ||| (lenBytes 1 n ++ tail).getD 1 0 = n := by
  rw [getD_append_left (by simp [lenBytes]), getD_append_left (by simp [lenBytes])]
  simp only [lenBytes, if_neg (by decide : ¬ ((1 : Nat) = 0)),
    List.getD_cons_zero, List.getD_cons_succ]
  rw [Nat.shiftRight_eq_div_pow, Nat.shiftLeft_eq, and_mask8]
  norm_num
  have h2 : n % 256 < 2 ^ 8 := by norm_num [Nat.mod_lt]
  have h3 := Nat.mul_add_lt_is_or h2 (n / 256)
  norm_num at h3
  rw [mul_comm (n / 256) 256, ← h3]
  omega

/-! The sender's happy path: every packet is acknowledged at once. -/

@[simp] lemma chunkPackets_nil (ps is_stx crcm seq : Nat) :
    chunkPackets ps is_stx crcm seq [] = [] := by
  rw [chunkPackets]

@[simp] lemma chunkCount_nil (ps : Nat) : chunkCount ps [] = 0 := by
  rw [chunkCount]

/-- One pass of the packet loop against an immediate `ACK`. -/
lemma sendPacketLoop_ack (fuel retry : Nat) (pkt : List Nat)
    (errc cancel : Nat) (rest : List Nat) (o : List (List Nat)) (r : Nat) :
    sendPacketLoop (fuel + 1) retry pkt errc cancel ⟨ACK :: rest, o, r⟩ =
      some (PacketLoopRes.acked cancel ⟨rest, o ++ [pkt], r + 1⟩) := by
  rw [sendPacketLoop]
  simp only [putc_mk, getc1_cons]
  simp

/-- One pass of the EOT loop against an immediate `ACK`. -/
lemma sendEotLoop_ack (fuel retry errc : Nat) (rest : List Nat)
    (o : List (List Nat)) (r : Nat) :
    sendEotLoop (fuel + 1) retry errc ⟨ACK :: rest, o, r⟩ =
      some (SendRes.ok, ⟨rest, o ++ [[EOT]], r + 1⟩) := by
  rw [sendEotLoop]
  simp only [putc_mk, getc1_cons]
  simp

/-- The data-block loop of a sender whose MD5 block is already out,
fed one `ACK` per remaining chunk plus one for the EOT: it emits
exactly the chunk packets followed by `EOT` and succeeds. -/
lemma sendBlocks_happy : ∀ (n : Nat) (stream : List Nat),
    stream.length = n →
    ∀ (ps fuel is_stx crcm seq errc cancel retry : Nat) (md5 : List Nat)
      (o : List (List Nat)) (r : Nat), 1 ≤ ps → stream.length + 2 ≤ fuel →
    sendBlocks fuel ps is_stx crcm md5 retry false stream true seq errc cancel
        ⟨List.replicate (chunkCount ps stream + 1) ACK, o, r⟩ =
      some (SendRes.ok,
        ⟨[], o ++ (chunkPackets ps is_stx crcm seq stream ++ [[EOT]]),
          r + (chunkCount ps stream + 1)⟩) := by
  intro n
  induction n using Nat.strong_induction_on with
  | _ n ih =>
  intro stream hn ps fuel is_stx crcm seq errc cancel retry md5 o r hps hf
  obtain ⟨f, rfl⟩ : ∃ f, fuel = f + 1 := ⟨fuel - 1, by omega⟩
  cases stream with
  | nil =>
    rw [sendBlocks]
    rw [if_neg (by decide : ¬ (false = true))]
    have hcond : ¬ (¬ (true : Bool) = true ∧ seq = 0) := by simp
    rw [if_neg hcond, if_neg hcond, if_neg hcond]
    dsimp only
    rw [if_pos (by simp : ([] : List Nat).take ps = [])]
    obtain ⟨g, rfl⟩ : ∃ g, f = g + 1 := ⟨f - 1, by simp at hf; omega⟩
    rw [chunkCount_nil]
    rw [show List.replicate (0 + 1) ACK = [ACK] from rfl]
    rw [sendEotLoop_ack]
    simp
  | cons b rest =>
    rw [sendBlocks]
    rw [if_neg (by decide : ¬ (false = true))]
    have hcond : ¬ (¬ (true : Bool) = true ∧ seq = 0) := by simp
    rw [if_neg hcond, if_neg hcond, if_neg hcond]
    dsimp only
    have hdata : (b :: rest).take ps ≠ [] := by
      obtain ⟨k, rfl⟩ : ∃ k, ps = k + 1 := ⟨ps - 1, by omega⟩
      simp [List.take_succ_cons]
    rw [if_neg hdata]
    rw [chunkCount_cons ps b rest hps]
    rw [List.replicate_succ]
    obtain ⟨g, rfl⟩ : ∃ g, f = g + 1 := ⟨f - 1, by simp at hf; omega⟩
    rw [sendPacketLoop_ack]
    dsimp only
    have hlen : ((b :: rest).drop ps).length < n := by
      simp at hn ⊢
      omega
    rw [ih ((b :: rest).drop ps).length hlen ((b :: rest).drop ps) rfl ps
      (g + 1) is_stx crcm ((seq + 1) % 0x100) 0 cancel retry md5
      (o ++ [mkSendHeader ps seq ++ mkFrame ps is_stx ((b :: rest).take ps)
        ++ mkChecksumBytes crcm (mkFrame ps is_stx ((b :: rest).take ps))])
      (r + 1) hps (by simp at hf ⊢; omega)]
    rw [chunkPackets_cons ps is_stx crcm seq b rest hps]
    rw [Option.some.injEq, Prod.mk.injEq, IOS.mk.injEq]
    refine ⟨rfl, rfl, ?_, by omega⟩
    rw [mkPacket]
    simp [List.append_assoc]

/-- A fully acknowledged `send_file` run: fed the receiver's handshake
byte and one `ACK` per packet (MD5 block, data chunks, `EOT`), it
returns `True` and its `putc` trace is exactly `sendPacketsAll`. -/
lemma sendRun_happy (fuel : Nat) (mode : Mode) (stream md5 : List Nat)
    (retry crcm : Nat) (hcrc : crcm = 0 ∨ crcm = 1) (hmd5 : md5 ≠ [])
    (hf : stream.length + 3 ≤ fuel) :
    sendRun fuel mode stream md5 retry false
        ⟨hsByteOf crcm ::
          List.replicate (chunkCount (packetSizeOf mode) stream + 2) ACK,
          [], 0⟩ =
      some (SendRes.ok,
        ⟨[], sendPacketsAll mode crcm md5 stream,
          chunkCount (packetSizeOf mode) stream + 3⟩) := by
  obtain ⟨f, rfl⟩ : ∃ f, fuel = f + 1 := ⟨fuel - 1, by omega⟩
  unfold sendRun
  rw [sendHandshake]
  simp only [getc1_cons]
  have hstart : ∀ o r,
      (if hsByteOf crcm = NAK then
        some (SendHS.started 0 0 ⟨List.replicate (chunkCount (packetSizeOf mode) stream + 2) ACK, o, r⟩)
      else if hsByteOf crcm = CRC then
        some (SendHS.started 1 0 ⟨List.replicate (chunkCount (packetSizeOf mode) stream + 2) ACK, o, r⟩)
      else if hsByteOf crcm = CAN then
        if (0 : Nat) ≠ 0 then some (SendHS.canceledHS ⟨List.replicate (chunkCount (packetSizeOf mode) stream + 2) ACK, o, r⟩)
        else if 0 + 1 > retry then some (SendHS.failedHS (abortSeq ⟨List.replicate (chunkCount (packetSizeOf mode) stream + 2) ACK, o, r⟩))
        else sendHandshake f retry (0 + 1) 1 ⟨List.replicate (chunkCount (packetSizeOf mode) stream + 2) ACK, o, r⟩
      else if hsByteOf crcm = EOT then some (SendHS.failedHS ⟨List.replicate (chunkCount (packetSizeOf mode) stream + 2) ACK, o, r⟩)
      else if 0 + 1 > retry then some (SendHS.failedHS (abortSeq ⟨List.replicate (chunkCount (packetSizeOf mode) stream + 2) ACK, o, r⟩))
      else sendHandshake f retry (0 + 1) 0 ⟨List.replicate (chunkCount (packetSizeOf mode) stream + 2) ACK, o, r⟩)
      = some (SendHS.started crcm 0 ⟨List.replicate (chunkCount (packetSizeOf mode) stream + 2) ACK, o, r⟩) := by
    intro o r
    rcases hcrc with hc | hc <;> subst hc
    · rw [if_pos (by decide : hsByteOf 0 = NAK)]
    · rw [if_neg (by decide : ¬ (hsByteOf 1 = NAK)),
        if_pos (by decide : hsByteOf 1 = CRC)]
  rw [hstart]
  dsimp only
  rw [sendBlocks]
  rw [if_neg (by decide : ¬ (false = true))]
  rw [if_pos (by simp : ¬ (false : Bool) = true ∧ (0 : Nat) = 0),
    if_pos (by simp : ¬ (false : Bool) = true ∧ (0 : Nat) = 0),
    if_pos (by simp : ¬ (false : Bool) = true ∧ (0 : Nat) = 0)]
  rw [if_neg hmd5]
  rw [show chunkCount (packetSizeOf mode) stream + 2 = (chunkCount (packetSizeOf mode) stream + 1) + 1 from rfl,
    List.replicate_succ]
  obtain ⟨g, rfl⟩ : ∃ g, f = g + 1 := ⟨f - 1, by omega⟩
  dsimp only
  rw [sendPacketLoop_ack]
  dsimp only
  rw [show (0 + 1) % 0x100 = 1 from by norm_num]
  rw [sendBlocks_happy stream.length stream rfl (packetSizeOf mode) (g + 1)
    (isStxOf (packetSizeOf mode)) crcm 1 0 0 retry md5 _ 2
    (by cases mode <;> simp [packetSizeOf]) (by omega)]
  rw [sendPacketsAll, mkPacket]
  simp
  omega

/-! C6: which packets carry the MD5 digest and which carry file data. -/

/-- There are as many chunk packets as chunks. -/
lemma chunkPackets_length (ps is_stx crcm : Nat) : ∀ (n : Nat) (l : List Nat),
    l.length = n → ∀ seq,
    (chunkPackets ps is_stx crcm seq l).length = chunkCount ps l := by
  intro n
  induction n using Nat.strong_induction_on with
  | _ n ih =>
  intro l hn seq
  cases l with
  | nil => simp
  | cons b rest =>
    rw [chunkPackets, chunkCount]
    have hlt : (rest.drop (ps - 1)).length < n := by
      simp at hn ⊢
      omega
    simp only [List.length_cons]
    rw [ih _ hlt _ rfl]

/-- Packet `k` of the chunk-packet list: sequence `(seq + k) % 256`,
payload the `k`-th chunk. -/
lemma chunkPackets_get (ps is_stx crcm : Nat) : ∀ (k : Nat) (l : List Nat)
    (seq : Nat), seq < 256 → 1 ≤ ps → ps * k < l.length →
    (chunkPackets ps is_stx crcm seq l)[k]? =
      some (mkPacket ps is_stx crcm ((seq + k) % 256)
        ((l.drop (ps * k)).take ps)) := by
  intro k
  induction k with
  | zero =>
    intro l seq hseq hps hk
    cases l with
    | nil => simp at hk
    | cons b rest =>
      rw [chunkPackets_cons ps is_stx crcm seq b rest hps]
      simp [Nat.mod_eq_of_lt hseq]
  | succ k ihk =>
    intro l seq hseq hps hk
    cases l with
    | nil => simp at hk
    | cons b rest =>
      rw [chunkPackets_cons ps is_stx crcm seq b rest hps]
      rw [List.getElem?_cons_succ]
      have hk' : ps * k < ((b :: rest).drop ps).length := by
        simp only [List.length_drop, List.length_cons] at hk ⊢
        have h2 : ps * (k + 1) = ps * k + ps := by ring_nf
        omega
      rw [ihk ((b :: rest).drop ps) ((seq + 1) % 0x100)
        (Nat.mod_lt _ (by norm_num)) hps hk']
      congr 2
      · rw [Nat.mod_add_mod]
        congr 1
        omega
      · rw [List.drop_drop]
        congr 1
        ring_nf

/-- Dropping from a replicated list. -/
lemma drop_replicate (a : Nat) : ∀ (n m : Nat),
    (List.replicate m a).drop n = List.replicate (m - n) a := by
  intro n
  induction n with
  | zero => simp
  | succ n ih =>
    intro m
    cases m with
    | zero => simp
    | succ m =>
      rw [List.replicate_succ, List.drop_succ_cons, ih m]
      congr 1
      omega

/-- Chunk count of a replicated list in 128-byte mode. -/
lemma chunkCount_replicate_128 (a : Nat) : ∀ (n m : Nat), m ≤ n →
    chunkCount 128 (List.replicate m a) = (m + 127) / 128 := by
  intro n
  induction n using Nat.strong_induction_on with
  | _ n ih =>
  intro m hm
  cases m with
  | zero => simp
  | succ m =>
    rw [List.replicate_succ, chunkCount, show (128 - 1 : Nat) = 127 from rfl,
      drop_replicate a 127 m]
    rcases Nat.eq_zero_or_pos n with hn | hn
    · omega
    · rw [ih (n - 1) (by omega) (m - 127) (by omega)]
      omega

/-- A chunk index witnessing data at offset `ps * k` is below the chunk
count. -/
lemma lt_chunkCount (ps : Nat) (hps : 1 ≤ ps) : ∀ (n : Nat) (l : List Nat),
    l.length = n → ∀ k, ps * k < l.length → k < chunkCount ps l := by
  intro n
  induction n using Nat.strong_induction_on with
  | _ n ih =>
  intro l hn k hk
  cases l with
  | nil => simp at hk
  | cons b rest =>
    rw [chunkCount_cons ps b rest hps]
    cases k with
    | zero => omega
    | succ k =>
      have hlt : ((b :: rest).drop ps).length < n := by
        simp at hn ⊢
        omega
      have hk' : ps * k < ((b :: rest).drop ps).length := by
        simp only [List.length_drop, List.length_cons] at hk ⊢
        have h2 : ps * (k + 1) = ps * k + ps := by ring_nf
        omega
      have := ih _ hlt _ rfl k hk'
      omega

/-- C6 (corrected).  In a fully acknowledged send, the one sequence-0
MD5 block is the first transmitted packet and its first 32 payload bytes
are the digest; every later transmitted packet `k + 1` carries file
chunk `k` with sequence field `(1 + k) % 256` -- so once 255 data
packets have gone out the sequence counter wraps and a packet whose
sequence field is 0 carries file data, not the digest. -/
theorem claim_C6 (fuel : Nat) (mode : Mode) (stream md5 : List Nat)
    (retry crcm : Nat) (hcrc : crcm = 0 ∨ crcm = 1) (hlen : md5.length = 32)
    (hf : stream.length + 3 ≤ fuel) :
    sendRun fuel mode stream md5 retry false
        ⟨hsByteOf crcm ::
          List.replicate (chunkCount (packetSizeOf mode) stream + 2) ACK,
          [], 0⟩ =
      some (SendRes.ok,
        ⟨[], sendPacketsAll mode crcm md5 stream,
          chunkCount (packetSizeOf mode) stream + 3⟩)
    ∧ (sendPacketsAll mode crcm md5 stream)[0]? =
        some (mkPacket (packetSizeOf mode) (isStxOf (packetSizeOf mode)) crcm 0 md5)
    ∧ (mkPacket (packetSizeOf mode) (isStxOf (packetSizeOf mode)) crcm 0 md5)[1]? =
        some 0
    ∧ ((mkFrame (packetSizeOf mode) (isStxOf (packetSizeOf mode)) md5).drop
        (1 + isStxOf (packetSizeOf mode))).take 32 = md5
    ∧ (∀ k, packetSizeOf mode * k < stream.length →
        (sendPacketsAll mode crcm md5 stream)[k + 1]? =
          some (mkPacket (packetSizeOf mode) (isStxOf (packetSizeOf mode)) crcm
            ((1 + k) % 256)
            ((stream.drop (packetSizeOf mode * k)).take (packetSizeOf mode)))) := by
  have hst : isStxOf (packetSizeOf mode) = 0 ∨ isStxOf (packetSizeOf mode) = 1 := by
    cases mode <;> simp [packetSizeOf, isStxOf]
  have hps : 1 ≤ packetSizeOf mode := by
    cases mode <;> simp [packetSizeOf]
  refine ⟨sendRun_happy fuel mode stream md5 retry crcm hcrc
      (by intro h; rw [h] at hlen; simp at hlen) hf, ?_, ?_, ?_, ?_⟩
  · rw [sendPacketsAll]
    simp
  · rw [mkPacket_cons]
    simp
  · rw [mkFrame_drop md5 hst, ← hlen, ljust_take]
  · intro k hk
    rw [sendPacketsAll]
    rw [List.getElem?_append_left (by
        simp only [List.length_cons]
        rw [chunkPackets_length (packetSizeOf mode) _ _ _ stream rfl 1]
        have := lt_chunkCount (packetSizeOf mode) hps _ stream rfl k hk
        omega)]
    rw [List.getElem?_cons_succ,
      chunkPackets_get (packetSizeOf mode) (isStxOf (packetSizeOf mode)) crcm
        k stream 1 (by norm_num) hps hk]

/-- Witness for C6 on a short file in 8K CRC mode: the projection of the
run conclusion. -/
theorem claim_C6_witness :
    sendRun 10 Mode.xmodem8k [1, 2, 3] (List.replicate 32 97) 16 false
        ⟨hsByteOf 1 ::
          List.replicate (chunkCount (packetSizeOf Mode.xmodem8k) [1, 2, 3] + 2) ACK,
          [], 0⟩ =
      some (SendRes.ok,
        ⟨[], sendPacketsAll Mode.xmodem8k 1 (List.replicate 32 97) [1, 2, 3],
          chunkCount (packetSizeOf Mode.xmodem8k) [1, 2, 3] + 3⟩) :=
  (claim_C6 10 Mode.xmodem8k [1, 2, 3] (List.replicate 32 97) 16 1
    (Or.inr rfl) (by simp) (by norm_num)).1

/-- Counterexample to C6 as stated: for a 32641-byte file in 128-byte
checksum mode, the fully acknowledged run wraps the sequence counter;
transmitted packet 256 has sequence field 0 but carries the last file
byte `65`, and its payload does not begin with the 32-byte digest. -/
theorem claim_C6_cex :
    sendRun 32645 Mode.xmodem (List.replicate 32641 65) (List.replicate 32 48)
        16 false
        ⟨hsByteOf 0 ::
          List.replicate
            (chunkCount (packetSizeOf Mode.xmodem) (List.replicate 32641 65) + 2)
            ACK, [], 0⟩ =
      some (SendRes.ok,
        ⟨[], sendPacketsAll Mode.xmodem 0 (List.replicate 32 48)
            (List.replicate 32641 65),
          chunkCount (packetSizeOf Mode.xmodem) (List.replicate 32641 65) + 3⟩)
    ∧ (sendPacketsAll Mode.xmodem 0 (List.replicate 32 48)
        (List.replicate 32641 65))[256]? = some (mkPacket 128 0 0 0 [65])
    ∧ (mkPacket 128 0 0 0 [65])[1]? = some (0 : Nat)
    ∧ ((mkFrame 128 0 [65]).drop 1).take 32 ≠ List.replicate 32 48 := by
  have hcc : chunkCount (packetSizeOf Mode.xmodem) (List.replicate 32641 65) = 256 := by
    show chunkCount 128 (List.replicate 32641 65) = 256
    rw [chunkCount_replicate_128 65 32641 32641 (by omega)]
  refine ⟨sendRun_happy 32645 Mode.xmodem (List.replicate 32641 65)
      (List.replicate 32 48) 16 0 (Or.inl rfl) (by simp)
      (by rw [List.length_replicate]; omega),
    ?_, by rw [mkPacket_cons]; simp, by decide⟩
  rw [sendPacketsAll]
  have hps : packetSizeOf Mode.xmodem = 128 := rfl
  have hst : isStxOf 128 = 0 := rfl
  rw [hps, hst]
  rw [List.getElem?_append_left (by
    rw [List.length_cons]
    rw [chunkPackets_length 128 0 0 32641 (List.replicate 32641 65)
      (by rw [List.length_replicate]) 1]
    rw [show chunkCount 128 (List.replicate 32641 65) = 256 from hcc]
    omega)]
  rw [List.getElem?_cons_succ]
  rw [chunkPackets_get 128 0 0 255 (List.replicate 32641 65) 1 (by omega)
    (by omega) (by rw [List.length_replicate]; omega)]
  rw [show (128 * 255 : Nat) = 32640 from rfl, drop_replicate]
  norm_num

/-! The receiver's happy path: processing a fully acknowledged sender
transcript, for the round-trip (C2), MD5-match (C7) and upload-handler
(C9) results. -/

/-- `getc1` in closed form. -/
lemma getc1_eq (i : List Nat) (o : List (List Nat)) (r : Nat) :
    getc1 ⟨i, o, r⟩ = (i[0]?, ⟨i.drop 1, o, r + 1⟩) := by
  cases i <;> simp [getc1]

/-- A receive handshake that sees a block header byte at once: it sends
one mode-request byte and starts, deriving the block-size mode from the
header byte. -/
lemma recvHandshake_start (f retry crcm : Nat) (mode0 : Mode) (hb : Nat)
    (hhb : hb = SOH ∨ hb = STX)
    (hcrc : crcm = 0 ∨ (crcm = 1 ∧ 2 ≤ retry)) (hretry : 1 ≤ retry)
    (rest : List Nat) (o : List (List Nat)) (r : Nat) :
    recvHandshake (f + 1) retry crcm mode0 false 0 0 ⟨hb :: rest, o, r⟩ =
      some (RecvHS.started crcm
        (if hb = SOH then Mode.xmodem else Mode.xmodem8k) hb
        ⟨rest, o ++ [[hsByteOf crcm]], r + 1⟩) := by
  rw [recvHandshake, if_neg (by omega : ¬ (0 ≥ retry))]
  rcases hcrc with hc | ⟨hc, h2⟩ <;> subst hc
  · have hcond : ¬ ((0 : Nat) ≠ 0 ∧ 0 < retry / 2) := by simp
    rw [if_neg hcond, if_neg hcond]
    simp only [putc_mk, getc1_cons]
    rcases hhb with h | h <;> subst h
    · rw [if_pos rfl]
      simp [hsByteOf]
    · rw [if_neg (by decide : ¬ (STX = SOH)), if_pos rfl]
      simp [hsByteOf, SOH, STX]
  · have hcond : ((1 : Nat) ≠ 0 ∧ 0 < retry / 2) := ⟨by decide, by omega⟩
    rw [if_pos hcond, if_pos hcond]
    simp only [putc_mk, getc1_cons]
    rcases hhb with h | h <;> subst h
    · rw [if_pos rfl]
      simp [hsByteOf]
    · rw [if_neg (by decide : ¬ (STX = SOH)), if_pos rfl]
      simp [hsByteOf, SOH, STX]

/-- Decoding the length prefix of a frame, in either mode. -/
lemma mkFrame_dlen (ps is_stx : Nat) (data : List Nat)
    (hst : is_stx = 0 ∨ is_stx = 1)
    (hd0 : is_stx = 0 → data.length < 256) (hd1 : data.length < 65536) :
    (if is_stx ≠ 0 then
       (mkFrame ps is_stx data).getD 0 0 <<< 8 ||| (mkFrame ps is_stx data).getD 1 0
     else (mkFrame ps is_stx data).getD 0 0) = data.length := by
  rcases hst with h | h <;> subst h
  · rw [if_neg (by decide : ¬ ((0 : Nat) ≠ 0))]
    exact frame_dlen0 _ (hd0 rfl)
  · rw [if_pos (by decide : (1 : Nat) ≠ 0)]
    exact frame_dlen1 _ hd1

/-- Length of a frame plus its checksum trailer. -/
lemma framePlusCs_length {ps is_stx crcm : Nat} {data : List Nat}
    (hst : is_stx = 0 ∨ is_stx = 1) (hcrc : crcm = 0 ∨ crcm = 1)
    (hd : data.length ≤ ps) :
    (mkFrame ps is_stx data
      ++ mkChecksumBytes crcm (mkFrame ps is_stx data)).length =
      1 + is_stx + ps + 1 + crcm := by
  rw [List.length_append, mkFrame_length hst hd, mkChecksumBytes_length _ hcrc]
  omega

/-- A well-formed data packet body (header byte already consumed) on a
non-MD5 turn: the receiver reads the sequence bytes, the framed payload
and the checksum, appends exactly the payload to the sink, acknowledges
and reads one more byte. -/
lemma recvPacket_good (ps is_stx crcm : Nat) (md5h : List Nat) (seq : Nat)
    (md5rec : Bool) (sink : List Nat) (income : Nat) (data rest : List Nat)
    (o : List (List Nat)) (r : Nat)
    (hst : is_stx = 0 ∨ is_stx = 1) (hcrc : crcm = 0 ∨ crcm = 1)
    (hseq : seq ≤ 255) (hd : data.length ≤ ps)
    (hd0 : is_stx = 0 → data.length < 256) (hd1 : data.length < 65536)
    (hnm : ¬ (seq = 0 ∧ md5rec = false)) :
    recvPacket ps is_stx crcm md5h seq md5rec sink income
        ⟨seq :: (0xFF - seq) ::
          ((mkFrame ps is_stx data ++ mkChecksumBytes crcm (mkFrame ps is_stx data))
            ++ rest), o, r⟩ =
      PacketRes.success (sink ++ data) (income + data.length) md5rec
        rest[0]? ⟨rest.drop 1, o ++ [[ACK]], r + 4⟩ := by
  unfold recvPacket
  simp only [getc1_cons]
  rw [if_pos (⟨by omega, by omega⟩ :
    seq = 0xFF - (0xFF - seq) ∧ 0xFF - (0xFF - seq) = seq)]
  rw [getcN_exact (framePlusCs_length hst hcrc hd) rest o (r + 2)]
  dsimp only
  rcases hcrc with hc | hc <;> subst hc
  · rw [show (decide ((0 : Nat) ≠ 0)) = false from by decide,
      show mkChecksumBytes 0 (mkFrame ps is_stx data) =
        [calc_checksum (mkFrame ps is_stx data) 0] from by simp [mkChecksumBytes],
      verifyChecksum_sum]
    try dsimp only
    rw [if_neg hnm]
    rw [mkFrame_dlen ps is_stx data hst hd0 hd1, mkFrame_drop data hst,
      ljust_take]
    simp only [putc_mk, getc1_eq]
  · rw [show (decide ((1 : Nat) ≠ 0)) = true from by decide,
      show mkChecksumBytes 1 (mkFrame ps is_stx data) =
        [calc_crc (mkFrame ps is_stx data) 0 >>> 8,
         calc_crc (mkFrame ps is_stx data) 0 &&& 0xFF] from by
        simp [mkChecksumBytes],
      verifyChecksum_crc]
    try dsimp only
    rw [if_neg hnm]
    rw [mkFrame_dlen ps is_stx data hst hd0 hd1, mkFrame_drop data hst,
      ljust_take]
    simp only [putc_mk, getc1_eq]

/-- The one-time sequence-0 packet when the expected MD5 does not match
the first 32 payload bytes: nothing is written, the MD5 phase is marked
done, the receiver acknowledges and reads one more byte. -/
lemma recvPacket_md5skip (ps is_stx crcm : Nat) (md5h : List Nat)
    (sink : List Nat) (income : Nat) (data rest : List Nat)
    (o : List (List Nat)) (r : Nat)
    (hst : is_stx = 0 ∨ is_stx = 1) (hcrc : crcm = 0 ∨ crcm = 1)
    (hd : data.length ≤ ps)
    (hne : md5h ≠ (ljust data ps PAD).take 32) :
    recvPacket ps is_stx crcm md5h 0 false sink income
        ⟨0 :: 255 ::
          ((mkFrame ps is_stx data ++ mkChecksumBytes crcm (mkFrame ps is_stx data))
            ++ rest), o, r⟩ =
      PacketRes.success sink income true
        rest[0]? ⟨rest.drop 1, o ++ [[ACK]], r + 4⟩ := by
  unfold recvPacket
  simp only [getc1_cons]
  rw [if_pos (⟨trivial, trivial⟩ : True ∧ True)]
  rw [getcN_exact (framePlusCs_length hst hcrc hd) rest o (r + 2)]
  dsimp only
  rcases hcrc with hc | hc <;> subst hc
  · rw [show (decide ((0 : Nat) ≠ 0)) = false from by decide,
      show mkChecksumBytes 0 (mkFrame ps is_stx data) =
        [calc_checksum (mkFrame ps is_stx data) 0] from by simp [mkChecksumBytes],
      verifyChecksum_sum]
    try dsimp only
    rw [if_pos (⟨trivial, trivial⟩ : True ∧ True)]
    rw [mkFrame_drop data hst, if_neg hne]
    simp only [putc_mk, getc1_eq]
  · rw [show (decide ((1 : Nat) ≠ 0)) = true from by decide,
      show mkChecksumBytes 1 (mkFrame ps is_stx data) =
        [calc_crc (mkFrame ps is_stx data) 0 >>> 8,
         calc_crc (mkFrame ps is_stx data) 0 &&& 0xFF] from by
        simp [mkChecksumBytes],
      verifyChecksum_crc]
    try dsimp only
    rw [if_pos (⟨trivial, trivial⟩ : True ∧ True)]
    rw [mkFrame_drop data hst, if_neg hne]
    simp only [putc_mk, getc1_eq]

/-- The one-time sequence-0 packet when the expected MD5 matches: the
receiver emits three `CAN` bytes, drains the input and reports the
match. -/
lemma recvPacket_md5hit (ps is_stx crcm : Nat) (md5h : List Nat)
    (sink : List Nat) (income : Nat) (data rest : List Nat)
    (o : List (List Nat)) (r : Nat)
    (hst : is_stx = 0 ∨ is_stx = 1) (hcrc : crcm = 0 ∨ crcm = 1)
    (hd : data.length ≤ ps)
    (heq : md5h = (ljust data ps PAD).take 32) :
    recvPacket ps is_stx crcm md5h 0 false sink income
        ⟨0 :: 255 ::
          ((mkFrame ps is_stx data ++ mkChecksumBytes crcm (mkFrame ps is_stx data))
            ++ rest), o, r⟩ =
      PacketRes.md5hit
        ⟨[], o ++ [[CAN], [CAN], [CAN]], r + 3 + rest.length + 1⟩ := by
  unfold recvPacket
  simp only [getc1_cons]
  rw [if_pos (⟨trivial, trivial⟩ : True ∧ True)]
  rw [getcN_exact (framePlusCs_length hst hcrc hd) rest o (r + 2)]
  dsimp only
  rcases hcrc with hc | hc <;> subst hc
  · rw [show (decide ((0 : Nat) ≠ 0)) = false from by decide,
      show mkChecksumBytes 0 (mkFrame ps is_stx data) =
        [calc_checksum (mkFrame ps is_stx data) 0] from by simp [mkChecksumBytes],
      verifyChecksum_sum]
    try dsimp only
    rw [if_pos (⟨trivial, trivial⟩ : True ∧ True)]
    rw [mkFrame_drop data hst, if_pos heq]
    simp only [putc_mk, drainAll_mk]
    simp [List.append_assoc]
  · rw [show (decide ((1 : Nat) ≠ 0)) = true from by decide,
      show mkChecksumBytes 1 (mkFrame ps is_stx data) =
        [calc_crc (mkFrame ps is_stx data) 0 >>> 8,
         calc_crc (mkFrame ps is_stx data) 0 &&& 0xFF] from by
        simp [mkChecksumBytes],
      verifyChecksum_crc]
    try dsimp only
    rw [if_pos (⟨trivial, trivial⟩ : True ∧ True)]
    rw [mkFrame_drop data hst, if_pos heq]
    simp only [putc_mk, drainAll_mk]
    simp [List.append_assoc]

/-- The block loop on seeing `EOT`: acknowledge and return the byte
count. -/
lemma recvLoop_eot (f : Nat) (ps is_stx crcm retry : Nat) (md5h : List Nat)
    (seq : Nat) (sink : List Nat) (income retrans : Nat) (md5rec : Bool)
    (i : List Nat) (o : List (List Nat)) (r : Nat) :
    recvLoop (f + 2) ps is_stx crcm retry md5h false (some EOT) seq sink
        income retrans md5rec ⟨i, o, r⟩ =
      some ⟨some income, sink, ⟨i, o ++ [[ACK]], r⟩, false⟩ := by
  rw [recvLoop, if_neg (by decide : ¬ (false = true))]
  rw [headerWait, if_neg (by decide : ¬ (EOT = SOH ∨ EOT = STX)), if_pos rfl]
  dsimp only
  simp

/-- The block loop of a receiver past the MD5 phase, fed the remaining
chunk packets and the final `EOT`: it acknowledges every packet, writes
exactly the stream to the sink and adds its length to the byte count. -/
lemma recvBlocks_happy : ∀ (n : Nat) (stream : List Nat), stream.length = n →
    ∀ (ps is_stx crcm retry fuel seq income retrans : Nat)
      (md5h sink : List Nat) (o : List (List Nat)) (r : Nat),
    1 ≤ ps → (is_stx = 0 ∨ is_stx = 1) → (crcm = 0 ∨ crcm = 1) →
    (is_stx = 0 → ps < 256) → ps < 65536 → seq ≤ 255 →
    stream.length + 2 ≤ fuel →
    recvLoop fuel ps is_stx crcm retry md5h false
        (((chunkPackets ps is_stx crcm seq stream).flatten ++ [EOT])[0]?) seq sink
        income retrans true
        ⟨((chunkPackets ps is_stx crcm seq stream).flatten ++ [EOT]).drop 1, o, r⟩ =
      some ⟨some (income + stream.length), sink ++ stream,
        ⟨[], o ++ (List.replicate (chunkCount ps stream) [ACK] ++ [[ACK]]),
          r + 4 * chunkCount ps stream⟩, false⟩ := by
  intro n
  induction n using Nat.strong_induction_on with
  | _ n ih =>
  intro stream hn ps is_stx crcm retry fuel seq income retrans md5h sink o r
    hps hst hcrc hb0 hb1 hseq hf
  cases stream with
  | nil =>
    obtain ⟨f, rfl⟩ : ∃ f, fuel = f + 2 := ⟨fuel - 2, by simp at hf; omega⟩
    simp only [chunkPackets_nil, List.flatten_nil, List.nil_append]
    rw [show ([EOT] : List Nat)[0]? = some EOT from rfl,
      show ([EOT] : List Nat).drop 1 = [] from rfl]
    rw [recvLoop_eot]
    simp
  | cons b rest =>
    have hjoin : (chunkPackets ps is_stx crcm seq (b :: rest)).flatten ++ [EOT] =
        (if ps = 128 then SOH else STX) :: seq :: (0xFF - seq) ::
          ((mkFrame ps is_stx ((b :: rest).take ps)
            ++ mkChecksumBytes crcm (mkFrame ps is_stx ((b :: rest).take ps)))
           ++ ((chunkPackets ps is_stx crcm ((seq + 1) % 0x100)
                ((b :: rest).drop ps)).flatten ++ [EOT])) := by
      rw [chunkPackets_cons ps is_stx crcm seq b rest hps, List.flatten_cons,
        mkPacket_cons]
      simp [List.append_assoc]
    rw [hjoin]
    simp only [List.getElem?_cons_zero, List.drop_succ_cons, List.drop_zero]
    obtain ⟨g, rfl⟩ : ∃ g, fuel = g + 2 := ⟨fuel - 2, by simp at hf; omega⟩
    rw [recvLoop, if_neg (by decide : ¬ (false = true))]
    rw [headerWait, if_pos (by by_cases h : ps = 128 <;> simp [h] :
      (if ps = 128 then SOH else STX) = SOH ∨ (if ps = 128 then SOH else STX) = STX)]
    dsimp only
    rw [recvPacket_good ps is_stx crcm md5h seq true sink income
      ((b :: rest).take ps) _ o r hst hcrc hseq
      (by rw [List.length_take]; exact Nat.min_le_left _ _)
      (fun h => lt_of_le_of_lt (by rw [List.length_take]; exact Nat.min_le_left _ _) (hb0 h))
      (lt_of_le_of_lt (by rw [List.length_take]; exact Nat.min_le_left _ _) hb1)
      (by simp)]
    try dsimp only
    have hlen : ((b :: rest).drop ps).length < n := by
      simp at hn ⊢
      omega
    rw [ih ((b :: rest).drop ps).length hlen ((b :: rest).drop ps) rfl ps is_stx
      crcm retry (g + 1) ((seq + 1) % 0x100) (income + ((b :: rest).take ps).length)
      (retry + 1) md5h (sink ++ (b :: rest).take ps) (o ++ [[ACK]]) (r + 4)
      hps hst hcrc hb0 hb1
      (by have := Nat.mod_lt (seq + 1) (show 0 < 0x100 by norm_num); omega)
      (by simp only [List.length_drop, List.length_cons] at hf ⊢; omega)]
    rw [chunkCount_cons ps b rest hps]
    have h0 : ((b :: rest).take ps).length + ((b :: rest).drop ps).length
        = (b :: rest).length := by
      rw [List.length_take, List.length_drop]
      omega
    rw [Option.some.injEq, RecvOut.mk.injEq, Option.some.injEq, IOS.mk.injEq]
    refine ⟨?_, ?_, ⟨rfl, ?_, ?_⟩, rfl⟩
    · push_cast
      omega
    · rw [List.append_assoc, List.take_append_drop]
    · rw [List.replicate_succ]
      simp
    · omega

/-- `receive_file` fed a fully acknowledged sender transcript whose
expected MD5 does not match the digest block: it acknowledges every
packet, stores exactly the stream and returns its length. -/
lemma recvRun_happy (fuel : Nat) (mode mode0 : Mode) (stream md5 md5h : List Nat)
    (retry crcm : Nat)
    (hcrc : crcm = 0 ∨ (crcm = 1 ∧ 2 ≤ retry)) (hretry : 1 ≤ retry)
    (hm : md5.length ≤ 128)
    (hne : md5h ≠ (ljust md5 (packetSizeOf mode) PAD).take 32)
    (hf : stream.length + 3 ≤ fuel) :
    recvRun fuel mode0 false md5h crcm retry false
        ⟨(sendPacketsAll mode crcm md5 stream).flatten, [], 0⟩ =
      some ⟨some stream.length, stream,
        ⟨[], [[hsByteOf crcm], [ACK]]
            ++ (List.replicate (chunkCount (packetSizeOf mode) stream) [ACK]
              ++ [[ACK]]),
          5 + 4 * chunkCount (packetSizeOf mode) stream⟩, false⟩ := by
  have hcrc' : crcm = 0 ∨ crcm = 1 := by
    rcases hcrc with h | ⟨h, h2⟩
    · exact Or.inl h
    · exact Or.inr h
  have hst : isStxOf (packetSizeOf mode) = 0 ∨ isStxOf (packetSizeOf mode) = 1 := by
    cases mode <;> simp [packetSizeOf, isStxOf]
  have hps : 1 ≤ packetSizeOf mode := by cases mode <;> simp [packetSizeOf]
  have hd : md5.length ≤ packetSizeOf mode :=
    le_trans hm (by cases mode <;> norm_num [packetSizeOf])
  obtain ⟨g, rfl⟩ : ∃ g, fuel = g + 2 := ⟨fuel - 2, by omega⟩
  unfold recvRun
  have hjoin : (sendPacketsAll mode crcm md5 stream).flatten =
      (if packetSizeOf mode = 128 then SOH else STX) :: 0 :: 255 ::
        ((mkFrame (packetSizeOf mode) (isStxOf (packetSizeOf mode)) md5
          ++ mkChecksumBytes crcm
            (mkFrame (packetSizeOf mode) (isStxOf (packetSizeOf mode)) md5))
         ++ ((chunkPackets (packetSizeOf mode) (isStxOf (packetSizeOf mode)) crcm
              1 stream).flatten ++ [EOT])) := by
    rw [sendPacketsAll, List.flatten_append, List.flatten_cons, mkPacket_cons]
    simp [List.append_assoc]
  rw [hjoin]
  have hhb : (if packetSizeOf mode = 128 then SOH else STX) = SOH
      ∨ (if packetSizeOf mode = 128 then SOH else STX) = STX := by
    by_cases h : packetSizeOf mode = 128 <;> simp [h]
  rw [recvHandshake_start (g + 1) retry crcm mode0
    (if packetSizeOf mode = 128 then SOH else STX) hhb hcrc hretry _ [] 0]
  dsimp only
  have hmode : (if (if packetSizeOf mode = 128 then SOH else STX) = SOH
      then Mode.xmodem else Mode.xmodem8k) = mode := by
    cases mode <;> simp [packetSizeOf, SOH, STX]
  rw [hmode]
  rw [recvLoop, if_neg (by decide : ¬ (false = true))]
  rw [headerWait, if_pos hhb]
  dsimp only
  simp only [List.nil_append, Nat.zero_add]
  rw [recvPacket_md5skip (packetSizeOf mode) (isStxOf (packetSizeOf mode)) crcm
    md5h [] 0 md5 _ [[hsByteOf crcm]] 1 hst hcrc' hd hne]
  try dsimp only
  rw [show (0 + 1) % 0x100 = 1 from by norm_num]
  rw [recvBlocks_happy stream.length stream rfl (packetSizeOf mode)
    (isStxOf (packetSizeOf mode)) crcm retry (g + 1) 1 0 (retry + 1) md5h []
    ([[hsByteOf crcm]] ++ [[ACK]]) 5 hps hst hcrc'
    (by cases mode <;> simp [packetSizeOf, isStxOf])
    (by cases mode <;> norm_num [packetSizeOf]) (by omega) (by omega)]
  simp

/-- `receive_file` whose expected MD5 matches the digest block of the
sender transcript it is fed: it cancels with three `CAN` bytes, drains
the line, writes nothing and reports the match. -/
lemma recvRun_md5hit (fuel : Nat) (mode mode0 : Mode) (stream md5 md5h : List Nat)
    (retry crcm : Nat)
    (hcrc : crcm = 0 ∨ (crcm = 1 ∧ 2 ≤ retry)) (hretry : 1 ≤ retry)
    (hm : md5.length ≤ 128)
    (heq : md5h = (ljust md5 (packetSizeOf mode) PAD).take 32)
    (hf : 2 ≤ fuel) :
    recvRun fuel mode0 false md5h crcm retry false
        ⟨(sendPacketsAll mode crcm md5 stream).flatten, [], 0⟩ =
      some ⟨some 0, [],
        ⟨[], [[hsByteOf crcm], [CAN], [CAN], [CAN]],
          ((chunkPackets (packetSizeOf mode) (isStxOf (packetSizeOf mode)) crcm
              1 stream).flatten ++ [EOT]).length + 5⟩, true⟩ := by
  have hcrc' : crcm = 0 ∨ crcm = 1 := by
    rcases hcrc with h | ⟨h, h2⟩
    · exact Or.inl h
    · exact Or.inr h
  have hst : isStxOf (packetSizeOf mode) = 0 ∨ isStxOf (packetSizeOf mode) = 1 := by
    cases mode <;> simp [packetSizeOf, isStxOf]
  have hd : md5.length ≤ packetSizeOf mode :=
    le_trans hm (by cases mode <;> norm_num [packetSizeOf])
  obtain ⟨g, rfl⟩ : ∃ g, fuel = g + 2 := ⟨fuel - 2, by omega⟩
  unfold recvRun
  have hjoin : (sendPacketsAll mode crcm md5 stream).flatten =
      (if packetSizeOf mode = 128 then SOH else STX) :: 0 :: 255 ::
        ((mkFrame (packetSizeOf mode) (isStxOf (packetSizeOf mode)) md5
          ++ mkChecksumBytes crcm
            (mkFrame (packetSizeOf mode) (isStxOf (packetSizeOf mode)) md5))
         ++ ((chunkPackets (packetSizeOf mode) (isStxOf (packetSizeOf mode)) crcm
              1 stream).flatten ++ [EOT])) := by
    rw [sendPacketsAll, List.flatten_append, List.flatten_cons, mkPacket_cons]
    simp [List.append_assoc]
  rw [hjoin]
  have hhb : (if packetSizeOf mode = 128 then SOH else STX) = SOH
      ∨ (if packetSizeOf mode = 128 then SOH else STX) = STX := by
    by_cases h : packetSizeOf mode = 128 <;> simp [h]
  rw [recvHandshake_start (g + 1) retry crcm mode0
    (if packetSizeOf mode = 128 then SOH else STX) hhb hcrc hretry _ [] 0]
  dsimp only
  have hmode : (if (if packetSizeOf mode = 128 then SOH else STX) = SOH
      then Mode.xmodem else Mode.xmodem8k) = mode := by
    cases mode <;> simp [packetSizeOf, SOH, STX]
  rw [hmode]
  rw [recvLoop, if_neg (by decide : ¬ (false = true))]
  rw [headerWait, if_pos hhb]
  dsimp only
  simp only [List.nil_append, Nat.zero_add]
  rw [recvPacket_md5hit (packetSizeOf mode) (isStxOf (packetSizeOf mode)) crcm
    md5h [] 0 md5 _ [[hsByteOf crcm]] 1 hst hcrc' hd heq]
  try dsimp only
  rw [Option.some.injEq]
  have hr : 1 + 3 + ((chunkPackets (packetSizeOf mode) (isStxOf (packetSizeOf mode))
        crcm 1 stream).flatten ++ [EOT]).length + 1
      = ((chunkPackets (packetSizeOf mode) (isStxOf (packetSizeOf mode)) crcm
          1 stream).flatten ++ [EOT]).length + 5 := by omega
  rw [hr]
  simp

/-- Joining a script of single-byte `ACK` writes. -/
lemma flatten_replicate_single (a : Nat) :
    ∀ n, (List.replicate n [a]).flatten = List.replicate n a := by
  intro n
  induction n with
  | zero => simp
  | succ n ih =>
    rw [List.replicate_succ, List.flatten_cons, ih, List.replicate_succ]
    rfl

/-- C2.  Round trip over a lossless channel, in both block modes and both
checksum modes, for a receiver whose expected MD5 differs from the
digest block: the sender fed exactly the receiver's emissions succeeds
and transmits `sendPacketsAll`; the receiver fed exactly the sender's
transmitted bytes writes precisely the file to its sink and returns its
byte count; and the receiver's emissions flatten to exactly the reply
script the sender consumed. -/
theorem claim_C2 (fuel : Nat) (mode mode0 : Mode) (stream md5 md5h : List Nat)
    (retry crcm : Nat)
    (hcrc : crcm = 0 ∨ (crcm = 1 ∧ 2 ≤ retry)) (hretry : 1 ≤ retry)
    (hm32 : md5.length = 32) (hne : md5h ≠ md5)
    (hf : stream.length + 3 ≤ fuel) :
    sendRun fuel mode stream md5 retry false
        ⟨hsByteOf crcm ::
          List.replicate (chunkCount (packetSizeOf mode) stream + 2) ACK,
          [], 0⟩ =
      some (SendRes.ok,
        ⟨[], sendPacketsAll mode crcm md5 stream,
          chunkCount (packetSizeOf mode) stream + 3⟩)
    ∧ recvRun fuel mode0 false md5h crcm retry false
        ⟨(sendPacketsAll mode crcm md5 stream).flatten, [], 0⟩ =
      some ⟨some stream.length, stream,
        ⟨[], [[hsByteOf crcm], [ACK]]
            ++ (List.replicate (chunkCount (packetSizeOf mode) stream) [ACK]
              ++ [[ACK]]),
          5 + 4 * chunkCount (packetSizeOf mode) stream⟩, false⟩
    ∧ ([[hsByteOf crcm], [ACK]]
          ++ (List.replicate (chunkCount (packetSizeOf mode) stream) [ACK]
            ++ [[ACK]])).flatten =
        hsByteOf crcm ::
          List.replicate (chunkCount (packetSizeOf mode) stream + 2) ACK := by
  have hcrc' : crcm = 0 ∨ crcm = 1 := by
    rcases hcrc with h | ⟨h, h2⟩
    · exact Or.inl h
    · exact Or.inr h
  have hslice : (ljust md5 (packetSizeOf mode) PAD).take 32 = md5 := by
    rw [← hm32, ljust_take]
  refine ⟨sendRun_happy fuel mode stream md5 retry crcm hcrc'
      (by intro h; rw [h] at hm32; simp at hm32) hf,
    recvRun_happy fuel mode mode0 stream md5 md5h retry crcm hcrc hretry
      (by omega) (by rw [hslice]; exact hne) hf, ?_⟩
  have h2 : List.replicate (chunkCount (packetSizeOf mode) stream + 2) ACK
      = ACK :: (List.replicate (chunkCount (packetSizeOf mode) stream) ACK
        ++ [ACK]) := by
    rw [show chunkCount (packetSizeOf mode) stream + 2
        = (chunkCount (packetSizeOf mode) stream + 1) + 1 from rfl,
      List.replicate_succ, List.replicate_succ']
  rw [h2]
  simp [flatten_replicate_single]

/-- Witness for C2 on a 3-byte file in 128-byte CRC mode. -/
theorem claim_C2_witness :
    sendRun 10 Mode.xmodem [1, 2, 3] (List.replicate 32 97) 10 false
        ⟨hsByteOf 1 ::
          List.replicate (chunkCount (packetSizeOf Mode.xmodem) [1, 2, 3] + 2) ACK,
          [], 0⟩ =
      some (SendRes.ok,
        ⟨[], sendPacketsAll Mode.xmodem 1 (List.replicate 32 97) [1, 2, 3],
          chunkCount (packetSizeOf Mode.xmodem) [1, 2, 3] + 3⟩)
    ∧ recvRun 10 Mode.xmodem8k false (List.replicate 32 98) 1 10 false
        ⟨(sendPacketsAll Mode.xmodem 1 (List.replicate 32 97) [1, 2, 3]).flatten,
          [], 0⟩ =
      some ⟨some ([1, 2, 3] : List Nat).length, [1, 2, 3],
        ⟨[], [[hsByteOf 1], [ACK]]
            ++ (List.replicate (chunkCount (packetSizeOf Mode.xmodem) [1, 2, 3]) [ACK]
              ++ [[ACK]]),
          5 + 4 * chunkCount (packetSizeOf Mode.xmodem) [1, 2, 3]⟩, false⟩
    ∧ ([[hsByteOf 1], [ACK]]
          ++ (List.replicate (chunkCount (packetSizeOf Mode.xmodem) [1, 2, 3]) [ACK]
            ++ [[ACK]])).flatten =
        hsByteOf 1 ::
          List.replicate (chunkCount (packetSizeOf Mode.xmodem) [1, 2, 3] + 2) ACK :=
  claim_C2 10 Mode.xmodem Mode.xmodem8k [1, 2, 3] (List.replicate 32 97)
    (List.replicate 32 98) 10 1 (Or.inr ⟨rfl, by omega⟩) (by omega)
    (by simp) (by decide) (by simp)

/-- C7.  A receiver whose expected MD5 equals the sender's digest block,
fed a full sender transcript for any file: it returns the MD5-match
result `0`, writes zero bytes to the sink, and emits three `CAN` bytes
after its handshake byte. -/
theorem claim_C7 (fuel : Nat) (mode mode0 : Mode) (stream md5 : List Nat)
    (retry crcm : Nat)
    (hcrc : crcm = 0 ∨ (crcm = 1 ∧ 2 ≤ retry)) (hretry : 1 ≤ retry)
    (hm32 : md5.length = 32) (hf : 2 ≤ fuel) :
    ∃ rd, recvRun fuel mode0 false md5 crcm retry false
        ⟨(sendPacketsAll mode crcm md5 stream).flatten, [], 0⟩ =
      some ⟨some 0, [],
        ⟨[], [[hsByteOf crcm], [CAN], [CAN], [CAN]], rd⟩, true⟩ := by
  refine ⟨_, recvRun_md5hit fuel mode mode0 stream md5 md5 retry crcm hcrc
    hretry (by omega) ?_ hf⟩
  rw [← hm32, ljust_take]

/-- Witness for C7 on an empty file in 128-byte CRC mode. -/
theorem claim_C7_witness :
    ∃ rd, recvRun 2 Mode.xmodem8k false (List.replicate 32 97) 1 10 false
        ⟨(sendPacketsAll Mode.xmodem 1 (List.replicate 32 97) []).flatten, [], 0⟩ =
      some ⟨some 0, [],
        ⟨[], [[hsByteOf 1], [CAN], [CAN], [CAN]], rd⟩, true⟩ :=
  claim_C7 2 Mode.xmodem Mode.xmodem8k [] (List.replicate 32 97) 10 1
    (Or.inr ⟨rfl, by omega⟩) (by omega) (by simp) (by omega)

/-! C9: reachability of the MD5-match result under the upload handler's
empty expected MD5, and of its reply string. -/

/-- A successful bulk read returns exactly `n` bytes. -/
lemma getcN_fst_length {n : Nat} {s : IOS} {l : List Nat} {s' : IOS}
    (h : getcN n s = (some l, s')) : l.length = n := by
  unfold getcN at h
  by_cases hle : n ≤ s.inp.length
  · rw [if_pos hle] at h
    have h1 : some (s.inp.take n) = some l := congrArg Prod.fst h
    have h2 : s.inp.take n = l := by injection h1
    rw [← h2, List.length_take]
    omega
  · rw [if_neg hle] at h
    have h1 : (none : Option (List Nat)) = some l := congrArg Prod.fst h
    exact absurd h1 (by simp)

/-- The payload part returned by checksum verification. -/
lemma verifyChecksum_snd (cm : Bool) (dat : List Nat) :
    (verifyChecksum cm dat).2 =
      dat.take (dat.length - (if cm then 2 else 1)) := by
  cases cm <;> simp [verifyChecksum]

/-- With an empty expected MD5 the one-time match branch can never be
taken: the compared 32-byte payload slice is at least one byte long. -/
lemma recvPacket_ne_md5hit (ps is_stx crcm : Nat) (seq : Nat) (md5rec : Bool)
    (sink : List Nat) (income : Nat) (s : IOS) (hps : 1 ≤ ps) (s' : IOS) :
    recvPacket ps is_stx crcm [] seq md5rec sink income s ≠
      PacketRes.md5hit s' := by
  unfold recvPacket
  obtain ⟨i, o, r⟩ := s
  rcases i with _ | ⟨b1, i1⟩
  · simp only [getc1_nil]
    intro h
    exact PacketRes.noConfusion h
  · simp only [getc1_cons]
    rcases i1 with _ | ⟨b2, i2⟩
    · simp only [getc1_nil]
      intro h
      exact PacketRes.noConfusion h
    · simp only [getc1_cons]
      by_cases hcond : b1 = 0xFF - b2 ∧ 0xFF - b2 = seq
      · rw [if_pos hcond]
        rcases hN : getcN (1 + is_stx + ps + 1 + crcm) ⟨i2, o, r + 1 + 1⟩
          with ⟨dat?, s3⟩
        cases dat? with
        | none =>
          intro h
          exact PacketRes.noConfusion h
        | some dat =>
          try dsimp only
          have hdl : dat.length = 1 + is_stx + ps + 1 + crcm :=
            getcN_fst_length hN
          rcases hv : verifyChecksum (decide (crcm ≠ 0)) dat with ⟨ok, d⟩
          cases ok with
          | false =>
            intro h
            exact PacketRes.noConfusion h
          | true =>
            try dsimp only
            have hd2 : d = dat.take
                (dat.length - (if decide (crcm ≠ 0) then 2 else 1)) := by
              rw [← verifyChecksum_snd (decide (crcm ≠ 0)) dat, hv]
            by_cases hsm : seq = 0 ∧ md5rec = false
            · rw [if_pos hsm]
              have hk : 1 ≤ (d.drop (1 + is_stx)).length := by
                rw [hd2, List.length_drop, List.length_take, hdl]
                by_cases hcm : crcm = 0
                · subst hcm
                  simp
                  omega
                · rw [if_pos (by simp [hcm])]
                  omega
              have h32 : 1 ≤ ((d.drop (1 + is_stx)).take 32).length := by
                rw [List.length_take]
                exact Nat.le_min.mpr ⟨by omega, hk⟩
              have hne2 : ¬ (([] : List Nat) = (d.drop (1 + is_stx)).take 32) := by
                intro heq
                rw [← heq] at h32
                simp at h32
              rw [if_neg hne2]
              intro h
              exact PacketRes.noConfusion h
            · rw [if_neg hsm]
              intro h
              exact PacketRes.noConfusion h
      · rw [if_neg hcond]
        intro h
        exact PacketRes.noConfusion h

/-- With an empty expected MD5 the block loop never reports an MD5
match. -/
lemma recvLoop_md5M_false (ps is_stx crcm retry : Nat) (hps : 1 ≤ ps) :
    ∀ (fuel : Nat) (canceled : Bool) (char : Option Nat) (seq : Nat)
      (sink : List Nat) (income retrans : Nat) (md5rec : Bool) (s : IOS)
      (out : RecvOut),
    recvLoop fuel ps is_stx crcm retry [] canceled char seq sink income
        retrans md5rec s = some out → out.md5M = false := by
  intro fuel
  induction fuel with
  | zero =>
    intro canceled char seq sink income retrans md5rec s out h
    rw [recvLoop] at h
    exact Option.noConfusion h
  | succ f ih =>
    intro canceled char seq sink income retrans md5rec s out h
    rw [recvLoop] at h
    by_cases hc : canceled = true
    · rw [if_pos hc] at h
      injection h with h2
      rw [← h2]
    · rw [if_neg hc] at h
      rcases hW : headerWait f retry char 0 0 s with _ | w
      · rw [hW] at h
        exact Option.noConfusion h
      · rw [hW] at h
        cases w with
        | eotW s1 =>
          try dsimp only at h
          injection h with h2
          rw [← h2]
        | canW s1 =>
          try dsimp only at h
          injection h with h2
          rw [← h2]
        | failW s1 =>
          try dsimp only at h
          injection h with h2
          rw [← h2]
        | found c s1 =>
          try dsimp only at h
          cases hP : recvPacket ps is_stx crcm [] seq md5rec sink income s1 with
          | success sink' income' md5rec' ch s2 =>
            rw [hP] at h
            try dsimp only at h
            exact ih canceled ch _ sink' income' _ md5rec' s2 out h
          | md5hit s2 =>
            exact absurd hP
              (recvPacket_ne_md5hit ps is_stx crcm seq md5rec sink income s1 hps s2)
          | soft s2 =>
            rw [hP] at h
            try dsimp only at h
            by_cases hr : retrans - 1 = 0
            · rw [if_pos hr] at h
              injection h with h2
              rw [← h2]
            · rw [if_neg hr] at h
              exact ih canceled _ seq sink income _ md5rec _ out h

/-- With an empty expected MD5 `receive_file` never reports an MD5
match. -/
lemma recvRun_md5M_false (fuel : Nat) (mode0 : Mode) (ms : Bool)
    (crcm retry : Nat) (canceled : Bool) (s : IOS) (out : RecvOut)
    (h : recvRun fuel mode0 ms [] crcm retry canceled s = some out) :
    out.md5M = false := by
  unfold recvRun at h
  rcases hH : recvHandshake fuel retry crcm mode0 ms 0 0 s with _ | hs
  · rw [hH] at h
    exact Option.noConfusion h
  · rw [hH] at h
    cases hs with
    | failedHS s1 =>
      try dsimp only at h
      injection h with h2
      rw [← h2]
    | started crcm' mode ch s1 =>
      try dsimp only at h
      exact recvLoop_md5M_false (packetSizeOf mode) (isStxOf (packetSizeOf mode))
        crcm' retry (by cases mode <;> simp [packetSizeOf]) fuel canceled
        (some ch) 0 [] 0 (retry + 1) false s1 out h

/-- The upload handler's "file already exists" reply is reachable: a
client that opens in 128-byte mode, sends one well-formed sequence-0
packet and then `EOT` completes a transfer with zero data blocks, so
`receive_file` returns the byte count `0` -- the same value as the
MD5-match result -- and the handler emits the reply. -/
lemma handle_upload_zero_blocks (md5hex : List Nat → List Nat) (fp : String) :
    handle_upload md5hex fp 5
        ⟨SOH :: 0 :: 255 ::
          ((mkFrame 128 0 [] ++ mkChecksumBytes 1 (mkFrame 128 0 [])) ++ [EOT]),
          [], 0⟩ =
      some ("Upload canceled - file already exists with same content", none) := by
  have hrun : recvRun 5 Mode.xmodem8k false [] 1 10 false
      ⟨SOH :: 0 :: 255 ::
        ((mkFrame 128 0 [] ++ mkChecksumBytes 1 (mkFrame 128 0 [])) ++ [EOT]),
        [], 0⟩ =
      some ⟨some 0, [], ⟨[], [[CRC], [ACK], [ACK]], 5⟩, false⟩ := by
    unfold recvRun
    rw [recvHandshake_start 4 10 1 Mode.xmodem8k SOH (Or.inl rfl)
      (Or.inr ⟨rfl, by omega⟩) (by omega) _ [] 0]
    dsimp only
    rw [show (if SOH = SOH then Mode.xmodem else Mode.xmodem8k) = Mode.xmodem
      from by simp]
    simp only [packetSizeOf, List.nil_append, Nat.zero_add]
    rw [recvLoop, if_neg (by decide : ¬ (false = true))]
    rw [headerWait, if_pos (Or.inl rfl : SOH = SOH ∨ SOH = STX)]
    dsimp only
    rw [show isStxOf 128 = 0 from rfl]
    rw [recvPacket_md5skip 128 0 1 [] [] 0 [] [EOT] [[hsByteOf 1]] 1
      (Or.inl rfl) (Or.inr rfl) (by simp)
      (by simp [ljust, List.take_replicate])]
    try dsimp only
    simp only [List.getElem?_cons_zero, List.drop_succ_cons, List.drop_zero]
    rw [recvLoop_eot 2]
    simp [hsByteOf]
  unfold handle_upload
  rw [hrun]
  dsimp only
  rw [if_neg (by decide : ¬ ((0 : Int) = -1)), if_pos rfl]

/-- C9 (corrected).  With the empty expected MD5 the upload handler's
receive can never take the MD5-match branch -- the compared 32-byte
payload slice is never empty -- but the result value 0 is still
reachable as the byte count of a completed transfer with zero data
blocks, so the 'file already exists' reply is live, not dead code. -/
theorem claim_C9 :
    (∀ (fuel : Nat) (mode0 : Mode) (ms : Bool) (crcm retry : Nat)
       (canceled : Bool) (s : IOS) (out : RecvOut),
       recvRun fuel mode0 ms [] crcm retry canceled s = some out →
       out.md5M = false)
    ∧ (∀ (md5hex : List Nat → List Nat) (fp : String),
       handle_upload md5hex fp 5
          ⟨SOH :: 0 :: 255 ::
            ((mkFrame 128 0 [] ++ mkChecksumBytes 1 (mkFrame 128 0 [])) ++ [EOT]),
            [], 0⟩ =
        some ("Upload canceled - file already exists with same content", none)) :=
  ⟨fun fuel mode0 ms crcm retry canceled s out h =>
     recvRun_md5M_false fuel mode0 ms crcm retry canceled s out h,
   fun md5hex fp => handle_upload_zero_blocks md5hex fp⟩

/-- Witness for C9: the universal part applied to a concrete failing
run. -/
theorem claim_C9_witness :
    (⟨none, [], ⟨[], [[CAN], [CAN]], 0⟩, false⟩ : RecvOut).md5M = false :=
  claim_C9.1 1 Mode.xmodem8k false 1 0 false ⟨[], [], 0⟩
    ⟨none, [], ⟨[], [[CAN], [CAN]], 0⟩, false⟩ (by rfl)

/-- Counterexample to C9 as stated: the 'file already exists' reply is
not dead code -- this concrete upload returns it. -/
theorem claim_C9_cex :
    handle_upload (fun _ => []) "up.bin" 5
        ⟨SOH :: 0 :: 255 ::
          ((mkFrame 128 0 [] ++ mkChecksumBytes 1 (mkFrame 128 0 [])) ++ [EOT]),
          [], 0⟩ =
      some ("Upload canceled - file already exists with same content", none) :=
  handle_upload_zero_blocks (fun _ => []) "up.bin"

end Spindrift
